import Mathlib

/-!
# rshim_pcie.c : register access engine and probe

A shallow embedding of `src/rshim_pcie.c` (the PCIe backend of the user-space
RShim driver) and the properties of its register access engine, of the
Byte Access Widget protocol used by 32-bit hosts, and of the probe routine.

Conventions of the embedding.

* C `int` values (`chan`, `addr`, return codes) are `Int`; `uint64_t` /
  `uint32_t` / `uint8_t` values are `Nat`, reduced `% 2^64`, `% 2^32`,
  `% 2^8` at the places where the C code truncates.
* The mapped register window (`dev->rshim_regs`) is external, volatile state:
  it is a value `Window σ` threaded through every function, made of the state
  `σ` of the device behind the window and of the `trace` of the accesses the
  program has issued.  What a load returns and what a store does is given by a
  `Bus σ`, so that a statement quantified over `Bus σ` holds for every
  behaviour of the hardware.
* `rshim.h` is not part of the translated file: its constants and macros are
  the fields of `Build`, next to the two compile-time properties of the host
  that the file branches on (`__LP64__` and the byte order used by `be64toh`).
-/

namespace RshimPcie

/-! ## Constants -/

/-- Value of `ENOMEM` in errno.h. -/
def ENOMEM : Int := 12
/-- Value of `EACCES` in errno.h. -/
def EACCES : Int := 13
/-- Value of `ENODEV` in errno.h. -/
def ENODEV : Int := 19
/-- Value of `ETIMEDOUT` in errno.h. -/
def ETIMEDOUT : Int := 110

/-- Vendor id matched by `rshim_pcie_init`. -/
def TILERA_VENDOR_ID : Nat := 0x15b3
/-- Device id of the first generation (the write-throttled family). -/
def BLUEFIELD1_DEVICE_ID : Nat := 0xc2d2
/-- Device id of the second generation (the one with the interlock). -/
def BLUEFIELD2_DEVICE_ID : Nat := 0xc2d6
/-- The offset in the BAR of the RShim region. -/
def PCI_RSHIM_WINDOW_OFFSET : Nat := 0x0
/-- The size of the RShim region. -/
def PCI_RSHIM_WINDOW_SIZE : Nat := 0x100000

/-- Compile-time parameters of the translation unit: the host properties the
file branches on, and the constants and macros it takes from `rshim.h`. -/
structure Build where
  /-- Whether `__LP64__` is defined: direct 64-bit loads and stores. -/
  LP64 : Bool
  /-- The host is big-endian, so that `be64toh` is the identity. -/
  BIG_ENDIAN : Bool
  RSH_BYTE_ACC_CTL : Int
  RSH_BYTE_ACC_INTERLOCK : Int
  RSH_BYTE_ACC_ADDR : Int
  RSH_BYTE_ACC_RDAT : Int
  RSH_BYTE_ACC_WDAT : Int
  RSHIM_CHANNEL : Int
  RSH_BYTE_ACC_PENDING : Nat
  RSH_BYTE_ACC_SIZE_4BYTE : Nat
  RSH_BYTE_ACC_READ_TRIGGER : Nat
  /-- Retry budget of the two busy-wait loops (compared with an `int`
  counter; it is taken below `INT_MAX`, so the counter does not overflow). -/
  LOCK_RETRY_CNT : Nat
  RSH_SCRATCHPAD : Int
  /-- The macro `RSH_CHANNEL_BASE(chan)`. -/
  RSH_CHANNEL_BASE : Int → Int

/-! ## Data model -/

/-- The fields of libpci's `struct pci_dev` that the file reads. -/
structure pci_dev where
  vendor_id : Nat
  device_id : Nat
  bus : Nat
  dev : Nat
  func : Nat
  /-- The entry `base_addr[0]`. -/
  base_addr0 : Nat
  /-- The entry `size[0]`. -/
  size0 : Nat
deriving DecidableEq, Repr

/-- The three entry points the probe wires into a backend. -/
inductive Entry where
  | rshim_pcie_read
  | rshim_pcie_write
  | rshim_pcie_delete
deriving DecidableEq, Repr

/-- The fields of `struct rshim_backend` (declared in `rshim.h`) that the file
uses.  `ref` is the reference count kept by `rshim_ref` / `rshim_deref`. -/
structure rshim_backend where
  has_rshim : Bool
  has_tm : Bool
  dev_name : String
  drv_name : String
  registered : Bool
  read_rshim : Option Entry
  write_rshim : Option Entry
  destroy : Option Entry
  ref : Nat
deriving DecidableEq, Repr

/-- The record `struct rshim_pcie`.  `rshim_regs` is the address the window is
mapped at (`none` is `NULL`); the registers behind it are a `Window`.  The
`pci_dev` pointer is represented by the descriptor it points to. -/
structure rshim_pcie where
  bd : rshim_backend
  pci_dev : pci_dev
  rshim_regs : Option Nat
  /-- Number of 8-byte word writes, a `uint8_t`. -/
  write_count : Nat
  pci_fd : Int
deriving DecidableEq, Repr

/-- One entry of the trace of a register window: a load or a store the program
issued at a byte offset of the window, or the mark `read chan addr` left when
`rshim_pcie_read` starts an access of register `addr` of channel `chan`. -/
inductive Access where
  | load (off : Int) (val : Nat)
  | store (off : Int) (val : Nat)
  | read (chan : Int) (addr : Int)
deriving DecidableEq, Repr

/-- Behaviour of the device behind the window: what a load at an offset
returns and how loads and stores change the device state. -/
structure Bus (σ : Type) where
  load : σ → Int → Nat × σ
  store : σ → Int → Nat → σ

/-- A mapped register window: the state of the device and the accesses issued
so far (ghost). -/
structure Window (σ : Type) where
  regs : σ
  trace : List Access

variable {σ : Type}

/-! ## Volatile accessors -/

/-- Model of `readl`: a 32-bit load at `base + off`. -/
def readl (bus : Bus σ) (w : Window σ) (off : Int) : Nat × Window σ :=
  let r := bus.load w.regs off
  (r.1 % 2 ^ 32, { regs := r.2, trace := w.trace ++ [Access.load off (r.1 % 2 ^ 32)] })

/-- Model of `writel`: a 32-bit store at `base + off`. -/
def writel (bus : Bus σ) (value : Nat) (w : Window σ) (off : Int) : Window σ :=
  { regs := bus.store w.regs off (value % 2 ^ 32),
    trace := w.trace ++ [Access.store off (value % 2 ^ 32)] }

/-- Model of `readq`: a 64-bit load at `base + off`. -/
def readq (bus : Bus σ) (w : Window σ) (off : Int) : Nat × Window σ :=
  let r := bus.load w.regs off
  (r.1 % 2 ^ 64, { regs := r.2, trace := w.trace ++ [Access.load off (r.1 % 2 ^ 64)] })

/-- Model of `writeq`: a 64-bit store at `base + off`. -/
def writeq (bus : Bus σ) (value : Nat) (w : Window σ) (off : Int) : Window σ :=
  { regs := bus.store w.regs off (value % 2 ^ 64),
    trace := w.trace ++ [Access.store off (value % 2 ^ 64)] }

/-- The offset `reg | (chan << 16)` of a register of a channel. -/
def regoff (reg chan : Int) : Int :=
  Int.lor reg (chan <<< (16 : Int))

/-- The conversion `(uint32_t)` of an `int`. -/
def u32 (x : Int) : Nat :=
  (x % 2 ^ 32).toNat

/-- Byte reversal of a 64-bit word. -/
def bswap64 (x : Nat) : Nat :=
  ((x &&& 0xff) <<< 56) ||| (((x >>> 8) &&& 0xff) <<< 48) |||
  (((x >>> 16) &&& 0xff) <<< 40) ||| (((x >>> 24) &&& 0xff) <<< 32) |||
  (((x >>> 32) &&& 0xff) <<< 24) ||| (((x >>> 40) &&& 0xff) <<< 16) |||
  (((x >>> 48) &&& 0xff) <<< 8) ||| ((x >>> 56) &&& 0xff)

/-- Model of `be64toh`: the identity on a big-endian host, a byte reversal on
a little-endian one. -/
def be64toh (b : Build) (x : Nat) : Nat :=
  if b.BIG_ENDIAN then x else bswap64 x

/-! ## Byte Access Widget (hosts without `__LP64__`) -/

/-- The loop of `rshim_byte_acc_pending_wait`, started with the value of
`retry`:
`do { read_value = readl(CTL); if (++retry > LOCK_RETRY_CNT) return -ETIMEDOUT; }
 while (read_value & RSH_BYTE_ACC_PENDING); return 0;`.
`none` stands for a run that has not ended within `fuel` iterations. -/
def pending_wait_loop (bus : Bus σ) (b : Build) :
    Nat → Nat → Window σ → Option (Int × Window σ)
  | 0, _, _ => none
  | fuel + 1, retry, w =>
    let r := readl bus w (regoff b.RSH_BYTE_ACC_CTL b.RSHIM_CHANNEL)
    if retry + 1 > b.LOCK_RETRY_CNT then some (-ETIMEDOUT, r.2)
    else if r.1 &&& b.RSH_BYTE_ACC_PENDING ≠ 0 then
      pending_wait_loop bus b fuel (retry + 1) r.2
    else some (0, r.2)

/-- Wait until the RSH_BYTE_ACC_CTL pending bit is cleared. -/
def rshim_byte_acc_pending_wait (bus : Bus σ) (b : Build) (w : Window σ) :
    Option (Int × Window σ) :=
  pending_wait_loop bus b (b.LOCK_RETRY_CNT + 1) 0 w

/-- The loop of `rshim_byte_acc_lock_acquire`, started with the value of
`retry`:
`do { if (++retry > LOCK_RETRY_CNT) return -ETIMEDOUT; read_value = readl(INTERLOCK); }
 while (!(read_value & 0x1)); return 0;`.
`none` stands for a run that has not ended within `fuel` iterations. -/
def lock_acquire_loop (bus : Bus σ) (b : Build) :
    Nat → Nat → Window σ → Option (Int × Window σ)
  | 0, _, _ => none
  | fuel + 1, retry, w =>
    if retry + 1 > b.LOCK_RETRY_CNT then some (-ETIMEDOUT, w)
    else
      let r := readl bus w (regoff b.RSH_BYTE_ACC_INTERLOCK b.RSHIM_CHANNEL)
      if r.1 &&& 0x1 = 0 then lock_acquire_loop bus b fuel (retry + 1) r.2
      else some (0, r.2)

/-- Acquire BAW Interlock. -/
def rshim_byte_acc_lock_acquire (bus : Bus σ) (b : Build) (w : Window σ) :
    Option (Int × Window σ) :=
  lock_acquire_loop bus b (b.LOCK_RETRY_CNT + 1) 0 w

/-- Release BAW Interlock. -/
def rshim_byte_acc_lock_release (bus : Bus σ) (b : Build) (w : Window σ) : Window σ :=
  writel bus 0 w (regoff b.RSH_BYTE_ACC_INTERLOCK b.RSHIM_CHANNEL)

/-- The label `exit_read` / `exit_write`: release the interlock on the device
generation that has one, and return `rc`. -/
def exit_release (bus : Bus σ) (b : Build) (dev : rshim_pcie) (w : Window σ) : Window σ :=
  if dev.pci_dev.device_id = BLUEFIELD2_DEVICE_ID then rshim_byte_acc_lock_release bus b w
  else w

/-- Model of `rshim_byte_acc_read`: an 8-byte read through two 4-byte accesses
of the Byte Access Widget.  Returns the code, the content of `*result` and the
window. -/
def rshim_byte_acc_read (bus : Bus σ) (b : Build) (dev : rshim_pcie) (w : Window σ)
    (addr : Int) (result : Nat) : Option (Int × Nat × Window σ) :=
  match rshim_byte_acc_pending_wait bus b w with
  | none => none
  | some (rc, w) =>
    if rc ≠ 0 then some (rc, result, w)
    else
      let locked : Option (Int × Window σ) :=
        if dev.pci_dev.device_id = BLUEFIELD2_DEVICE_ID then
          rshim_byte_acc_lock_acquire bus b w
        else some (rc, w)
      match locked with
      | none => none
      | some (rc, w) =>
        if rc ≠ 0 then some (rc, result, w)
        else
          let w := writel bus (u32 addr) w (regoff b.RSH_BYTE_ACC_ADDR b.RSHIM_CHANNEL)
          let w := writel bus (b.RSH_BYTE_ACC_SIZE_4BYTE ||| b.RSH_BYTE_ACC_READ_TRIGGER) w
            (regoff b.RSH_BYTE_ACC_CTL b.RSHIM_CHANNEL)
          match rshim_byte_acc_pending_wait bus b w with
          | none => none
          | some (rc, w) =>
            if rc ≠ 0 then some (rc, result, exit_release bus b dev w)
            else
              let r1 := readl bus w (regoff b.RSH_BYTE_ACC_RDAT b.RSHIM_CHANNEL)
              let read_result := (r1.1 <<< 32) % 2 ^ 64
              match rshim_byte_acc_pending_wait bus b r1.2 with
              | none => none
              | some (rc, w) =>
                if rc ≠ 0 then some (rc, result, exit_release bus b dev w)
                else
                  let r2 := readl bus w (regoff b.RSH_BYTE_ACC_RDAT b.RSHIM_CHANNEL)
                  let read_result := read_result ||| r2.1
                  some (rc, be64toh b read_result, exit_release bus b dev r2.2)

/-- Model of `rshim_byte_acc_write`: an 8-byte write through two 4-byte
accesses of the Byte Access Widget. -/
def rshim_byte_acc_write (bus : Bus σ) (b : Build) (dev : rshim_pcie) (w : Window σ)
    (addr : Int) (value : Nat) : Option (Int × Window σ) :=
  match rshim_byte_acc_pending_wait bus b w with
  | none => none
  | some (rc, w) =>
    if rc ≠ 0 then some (rc, w)
    else
      let locked : Option (Int × Window σ) :=
        if dev.pci_dev.device_id = BLUEFIELD2_DEVICE_ID then
          rshim_byte_acc_lock_acquire bus b w
        else some (rc, w)
      match locked with
      | none => none
      | some (rc, w) =>
        if rc ≠ 0 then some (rc, w)
        else
          let w := writel bus (u32 addr) w (regoff b.RSH_BYTE_ACC_ADDR b.RSHIM_CHANNEL)
          let w := writel bus b.RSH_BYTE_ACC_SIZE_4BYTE w
            (regoff b.RSH_BYTE_ACC_CTL b.RSHIM_CHANNEL)
          let w := writel bus (value >>> 32) w (regoff b.RSH_BYTE_ACC_WDAT b.RSHIM_CHANNEL)
          match rshim_byte_acc_pending_wait bus b w with
          | none => none
          | some (rc, w) =>
            if rc ≠ 0 then some (rc, exit_release bus b dev w)
            else
              let w := writel bus value w (regoff b.RSH_BYTE_ACC_WDAT b.RSHIM_CHANNEL)
              some (rc, exit_release bus b dev w)

/-- The first steps of `rshim_byte_acc_read` and `rshim_byte_acc_write`, which
are the same in both: wait for the pending bit and, on the second generation,
acquire the interlock.  A non-zero code is the value the routine returns at
once.  Used to state the lemmas on the two routines. -/
def byte_acc_enter (bus : Bus σ) (b : Build) (dev : rshim_pcie) (w : Window σ) :
    Option (Int × Window σ) :=
  match rshim_byte_acc_pending_wait bus b w with
  | none => none
  | some (rc, w) =>
    if rc ≠ 0 then some (rc, w)
    else if dev.pci_dev.device_id = BLUEFIELD2_DEVICE_ID then
      rshim_byte_acc_lock_acquire bus b w
    else some (rc, w)

/-! ## RShim read/write routines -/

/-- Model of `rshim_pcie_read`.  Returns the code, the content of `*result`,
the record and the window. -/
def rshim_pcie_read (bus : Bus σ) (b : Build) (dev : rshim_pcie) (w : Window σ)
    (chan addr : Int) (result : Nat) : Option (Int × Nat × rshim_pcie × Window σ) :=
  if !dev.bd.has_rshim then some (-ENODEV, result, dev, w)
  else
    let dev := { dev with write_count := 0 }
    let w := { w with trace := w.trace ++ [Access.read chan addr] }
    if b.LP64 then
      let r := readq bus w (regoff addr chan)
      some (0, r.1, dev, r.2)
    else
      match rshim_byte_acc_read bus b dev w (b.RSH_CHANNEL_BASE chan + addr) result with
      | none => none
      | some (rc, result, w) => some (rc, result, dev, w)

/-- Model of `rshim_pcie_write`.  Returns the code, the record and the
window.  The value and the code of the read of the scratchpad are dropped, as
in the source. -/
def rshim_pcie_write (bus : Bus σ) (b : Build) (dev : rshim_pcie) (w : Window σ)
    (chan addr : Int) (value : Nat) : Option (Int × rshim_pcie × Window σ) :=
  if !dev.bd.has_rshim then some (-ENODEV, dev, w)
  else
    let throttled : Option (rshim_pcie × Window σ) :=
      if dev.pci_dev.device_id = BLUEFIELD1_DEVICE_ID then
        let flushed : Option (rshim_pcie × Window σ) :=
          if dev.write_count = 15 then
            match rshim_pcie_read bus b dev w chan b.RSH_SCRATCHPAD 0 with
            | none => none
            | some (_, _, dev, w) => some (dev, w)
          else some (dev, w)
        match flushed with
        | none => none
        | some (dev, w) => some ({ dev with write_count := (dev.write_count + 1) % 2 ^ 8 }, w)
      else some (dev, w)
    match throttled with
    | none => none
    | some (dev, w) =>
      if b.LP64 then some (0, dev, writeq bus value w (regoff addr chan))
      else
        match rshim_byte_acc_write bus b dev w (b.RSH_CHANNEL_BASE chan + addr) value with
        | none => none
        | some (rc, w) => some (rc, dev, w)

/-- The throttling block of `rshim_pcie_write`: on the first generation, read
the scratchpad when fifteen writes have been counted, then count this write.
Used to state the lemmas on `rshim_pcie_write`. -/
def write_throttle (bus : Bus σ) (b : Build) (dev : rshim_pcie) (w : Window σ)
    (chan : Int) : Option (rshim_pcie × Window σ) :=
  if dev.pci_dev.device_id = BLUEFIELD1_DEVICE_ID then
    let flushed : Option (rshim_pcie × Window σ) :=
      if dev.write_count = 15 then
        match rshim_pcie_read bus b dev w chan b.RSH_SCRATCHPAD 0 with
        | none => none
        | some (_, _, dev, w) => some (dev, w)
      else some (dev, w)
    match flushed with
    | none => none
    | some (dev, w) => some ({ dev with write_count := (dev.write_count + 1) % 2 ^ 8 }, w)
  else some (dev, w)

/-! ## Probe routine

The core (`rshim.c`) and the operating system are not part of the translated
file.  The registry functions are modelled on a `World`; the outcomes of the
other calls are the fields of `Env`. -/

/-- The process state the probe works on: the records obtained from `calloc`
(a pointer is an index, `none` a freed record), the core registry, and two
ghost counters of the calls made to `rshim_register` and `rshim_notify`. -/
structure World where
  heap : List (Option rshim_pcie)
  registry : List Nat
  register_calls : Nat
  notify_calls : Nat
deriving DecidableEq, Repr

/-- Outcomes of the calls the probe makes outside the file. -/
structure Env where
  /-- Answer of `rshim_allow_device`. -/
  allow : String → Bool
  /-- Whether `calloc` returns a record. -/
  calloc_ok : Bool
  /-- Whether the file is compiled for FreeBSD rather than Linux. -/
  freebsd : Bool
  /-- Descriptor returned by `open`. -/
  open_fd : Int
  /-- Value of `getpagesize()`. -/
  pagesize : Nat
  /-- Address returned by `mmap` for a descriptor and a file offset. -/
  mmap : Int → Nat → Nat
  /-- The value `MAP_FAILED`. -/
  MAP_FAILED : Nat
  /-- Result of the `PCIOCBARMMAP` ioctl: `none` is a negative return, else
  `pbm_map_base`, `pbm_bar_off` and `pbm_bar_length`. -/
  ioctl : Option (Nat × Nat × Nat)
  /-- Status returned by the registration in the core. -/
  register_rc : Int
  /-- Status returned by `rshim_notify`. -/
  notify_rc : Int

/-- The mask `PCI_BASE_ADDRESS_MEM_MASK` of pci/header.h, as a 64-bit
`pciaddr_t`. -/
def PCI_BASE_ADDRESS_MEM_MASK : Nat := 2 ^ 64 - 1 - 0x0f

/-- Lower-case hexadecimal digits of a number (`%x`). -/
def hex (n : Nat) : String :=
  String.mk (Nat.toDigits 16 n)

/-- Hexadecimal digits padded with a zero to two places (`%02x`). -/
def hex02 (n : Nat) : String :=
  if n < 16 then "0" ++ hex n else hex n

/-- The name built by `snprintf(pcie_dev_name, max_name_len,
"pcie-%02x:%02x.%x", bus, dev, func)` with `max_name_len = 64`. -/
def pcie_dev_name (p : pci_dev) : String :=
  ("pcie-" ++ hex02 p.bus ++ ":" ++ hex02 p.dev ++ "." ++ hex p.func).take 63

/-- The record behind a pointer, when it is allocated. -/
def World.deref (wd : World) (h : Nat) : Option rshim_pcie :=
  match wd.heap[h]? with
  | some (some d) => some d
  | _ => none

/-- Whether a heap cell holds a record that carries a name. -/
def has_name (name : String) (r : Option rshim_pcie) : Bool :=
  match r with
  | some d => decide (d.bd.dev_name = name)
  | none => false

/-- Store a record behind a pointer. -/
def World.put (wd : World) (h : Nat) (d : rshim_pcie) : World :=
  { wd with heap := wd.heap.set h (some d) }

/-- Modelled from the spec: `registry_lookup(name) -> record?` of the core,
which is not part of the translated file; it finds the registered record that
carries the name. -/
def rshim_find_by_name (wd : World) (name : String) : Option Nat :=
  wd.registry.find? (fun h => has_name name (wd.deref h))

/-- Modelled from the spec: `ref(record)` of the core, which is not part of
the translated file; it adds one to the reference count. -/
def rshim_ref (wd : World) (h : Nat) : World :=
  match wd.deref h with
  | some d => wd.put h { d with bd := { d.bd with ref := d.bd.ref + 1 } }
  | none => wd

/-- Modelled from the spec: `register(record) -> status` of the core, which is
not part of the translated file; when the core accepts the record it inserts
it in the registry and sets its `registered` flag. -/
def rshim_register (env : Env) (wd : World) (h : Nat) : Int × World :=
  let wd := { wd with register_calls := wd.register_calls + 1 }
  if env.register_rc ≠ 0 then (env.register_rc, wd)
  else
    match wd.deref h with
    | some d =>
      (0, { (wd.put h { d with bd := { d.bd with registered := true } }) with
            registry := wd.registry ++ [h] })
    | none => (0, wd)

/-- Modelled from the spec: `deregister(record)` of the core, which is not
part of the translated file; it removes the record from the registry. -/
def rshim_deregister (wd : World) (h : Nat) : World :=
  match wd.deref h with
  | some d =>
    { (wd.put h { d with bd := { d.bd with registered := false } }) with
      registry := wd.registry.filter (fun x => x ≠ h) }
  | none => wd

/-- Model of `rshim_pcie_delete`: deregister the backend and free the
record. -/
def rshim_pcie_delete (wd : World) (h : Nat) : World :=
  let wd := rshim_deregister wd h
  { wd with heap := wd.heap.set h none }

/-- Modelled from the spec: `deref(record)` of the core, which is not part of
the translated file; it subtracts one from the reference count and, when the
count reaches zero, calls the `destroy` entry of the record. -/
def rshim_deref (wd : World) (h : Nat) : World :=
  match wd.deref h with
  | some d =>
    let wd := wd.put h { d with bd := { d.bd with ref := d.bd.ref - 1 } }
    if d.bd.ref - 1 = 0 ∧ d.bd.destroy = some Entry.rshim_pcie_delete then
      rshim_pcie_delete wd h
    else wd
  | none => wd

/-- Modelled from the spec: `notify(record, event, value) -> status` of the
core, which is not part of the translated file. -/
def rshim_notify (env : Env) (wd : World) : Int × World :=
  (env.notify_rc, { wd with notify_calls := wd.notify_calls + 1 })

/-- The record `calloc` returns, after the assignments of the `else` branch of
the probe (all other fields are zero). -/
def new_record (name : String) : rshim_pcie :=
  { bd := { has_rshim := true, has_tm := true, dev_name := name,
            drv_name := "rshim_pcie", registered := false,
            read_rshim := some Entry.rshim_pcie_read,
            write_rshim := some Entry.rshim_pcie_write,
            destroy := some Entry.rshim_pcie_delete, ref := 0 },
    pci_dev := { vendor_id := 0, device_id := 0, bus := 0, dev := 0, func := 0,
                 base_addr0 := 0, size0 := 0 },
    rshim_regs := none, write_count := 0, pci_fd := 0 }

/-- The mapping step of the probe (Linux or FreeBSD branch): the error, if
any, that sends the probe to `rshim_map_failed`, and the record. -/
def map_region (env : Env) (p : pci_dev) (d : rshim_pcie) : Option Int × rshim_pcie :=
  if env.freebsd then
    let d := { d with pci_fd := env.open_fd }
    if env.open_fd < 0 then (some (-ENOMEM), d)
    else
      match env.ioctl with
      | none => (some (-ENOMEM), d)
      | some (map_base, bar_off, bar_length) =>
        let d := { d with rshim_regs := some (map_base + bar_off + PCI_RSHIM_WINDOW_OFFSET) }
        if bar_length < PCI_RSHIM_WINDOW_SIZE then (some (-ENOMEM), d) else (none, d)
  else
    if p.size0 = 0 then (some (-ENOMEM), d)
    else
      let d := { d with pci_fd := env.open_fd }
      let bar0 := (p.base_addr0 &&& PCI_BASE_ADDRESS_MEM_MASK) &&& (2 ^ 64 - env.pagesize)
      let regs := env.mmap env.open_fd (bar0 + PCI_RSHIM_WINDOW_OFFSET)
      let d := { d with rshim_regs := some regs }
      if regs = env.MAP_FAILED then (some (-ENOMEM), d) else (none, d)

/-- The label `rshim_map_failed`: drop the reference taken by the probe and
return `ret`. -/
def probe_failed (wd : World) (h : Nat) (ret : Int) : Int × World :=
  (ret, rshim_deref wd h)

/-- Model of `rshim_pcie_probe`.  Returns the code and the process state. -/
def rshim_pcie_probe (env : Env) (wd : World) (p : pci_dev) : Int × World :=
  let name := pcie_dev_name p
  if !env.allow name then (-EACCES, wd)
  else
    -- rshim_lock(); look the record up or create it
    let found : Option (Nat × World) :=
      match rshim_find_by_name wd name with
      | some h => some (h, wd)
      | none =>
        if env.calloc_ok then
          some (wd.heap.length, { wd with heap := wd.heap ++ [some (new_record name)] })
        else none
    match found with
    | none => (-ENOMEM, wd)
    | some (h, wd) =>
      let wd := rshim_ref wd h
      -- rshim_unlock(); initialize object
      match wd.deref h with
      | none => (-ENOMEM, wd) -- not reached: h is an allocated record
      | some d =>
        let d := { d with pci_dev := p }
        let m := map_region env p d
        let wd := wd.put h m.2
        match m.1 with
        | some ret => probe_failed wd h ret
        | none =>
          -- rshim_lock(); register the backend unless it already is
          let reg : Int × World :=
            if !m.2.bd.registered then rshim_register env wd h else (0, wd)
          if reg.1 ≠ 0 then probe_failed reg.2 h reg.1
          else
            -- notify that the device is attached
            let n := rshim_notify env reg.2
            if n.1 ≠ 0 then probe_failed n.2 h n.1 else (0, n.2)

/-- Number of allocated records that carry a name. -/
def records_named (wd : World) (name : String) : Nat :=
  (wd.heap.filter (has_name name)).length

/-! ## Sequences of accesses and measures on traces -/

/-- A call of one of the two access routines of a backend. -/
inductive Op where
  | read (chan addr : Int)
  | write (chan addr : Int) (value : Nat)
deriving DecidableEq, Repr

/-- One call on a backend and its window; the code and the value read are
dropped. -/
def step (bus : Bus σ) (b : Build) (s : rshim_pcie × Window σ) :
    Op → Option (rshim_pcie × Window σ)
  | Op.read chan addr =>
    (rshim_pcie_read bus b s.1 s.2 chan addr 0).map (fun r => (r.2.2.1, r.2.2.2))
  | Op.write chan addr value =>
    (rshim_pcie_write bus b s.1 s.2 chan addr value).map (fun r => (r.2.1, r.2.2))

/-- A finite sequence of calls, one after the other. -/
def run (bus : Bus σ) (b : Build) :
    List Op → rshim_pcie × Window σ → Option (rshim_pcie × Window σ)
  | [], s => some s
  | op :: ops, s => (step bus b s op).bind (run bus b ops)

/-- Whether a call is a write. -/
def Op.isWrite : Op → Bool
  | Op.write _ _ _ => true
  | Op.read _ _ => false

/-- Whether a trace entry is the mark of a `rshim_pcie_read`. -/
def Access.isRead : Access → Bool
  | Access.read _ _ => true
  | _ => false

/-- Whether a trace entry is a load. -/
def Access.isLoad : Access → Bool
  | Access.load _ _ => true
  | _ => false

/-- Whether a trace entry is a store. -/
def Access.isStore : Access → Bool
  | Access.store _ _ => true
  | _ => false

/-- Number of stores issued since the last load, after a trace that starts
with `cur` such stores. -/
def stores_pending (cur : Nat) : List Access → Nat
  | [] => cur
  | Access.load _ _ :: t => stores_pending 0 t
  | Access.store _ _ :: t => stores_pending (cur + 1) t
  | Access.read _ _ :: t => stores_pending cur t

/-- Whether at every point of a trace, started with `cur` stores since the
last load, at most `n` stores have been issued since the last load. -/
def stores_bounded (n : Nat) (cur : Nat) : List Access → Bool
  | [] => decide (cur ≤ n)
  | Access.load _ _ :: t => decide (cur ≤ n) && stores_bounded n 0 t
  | Access.store _ _ :: t => decide (cur ≤ n) && stores_bounded n (cur + 1) t
  | Access.read _ _ :: t => stores_bounded n cur t

/-- Number of loads in a trace. -/
def loads (t : List Access) : Nat :=
  (t.filter Access.isLoad).length

/-- A non-empty run of loads, as a busy-wait loop leaves in the trace. -/
def Polls (t : List Access) : Prop :=
  t ≠ [] ∧ ∀ a ∈ t, a.isLoad = true

/-- The store that releases the interlock, on the device generation that has
one. -/
def released (b : Build) (dev : rshim_pcie) : List Access :=
  if dev.pci_dev.device_id = BLUEFIELD2_DEVICE_ID then
    [Access.store (regoff b.RSH_BYTE_ACC_INTERLOCK b.RSHIM_CHANNEL) 0]
  else []

/-- Whether a trace entry is a store at a given offset. -/
def Access.isStoreAt (off : Int) : Access → Bool
  | Access.store o _ => decide (o = off)
  | _ => false

/-- The bound kept by the write throttling: the counter is at most fifteen, no
more than fifteen stores were ever issued without a load in between, and the
stores issued since the last load are all counted. -/
def Throttled (s : rshim_pcie × Window σ) : Prop :=
  s.1.write_count ≤ 15 ∧ stores_bounded 15 0 s.2.trace = true ∧
    stores_pending 0 s.2.trace ≤ s.1.write_count

/-! ## Concrete hosts and devices, used to evaluate the model -/

/-- A window of plain memory: a map from offsets to words, a load returns the
word last stored. -/
def memBus : Bus (Int → Nat) where
  load m off := (m off, m)
  store m off v := Function.update m off v

/-- A device whose every load returns the same word. -/
def constBus (val : Nat) : Bus Unit where
  load _ _ := (val, ())
  store _ _ _ := ()

/-- A device that returns `val` to its first `n` loads and zero afterwards; its
state is the number of loads served. -/
def firstBus (n val : Nat) : Bus Nat where
  load s _ := (if s < n then val else 0, s + 1)
  store s _ _ := s

/-- A build with register offsets and bit masks in the layout of the RShim
register file, a channel base of `chan << 16`, and the given host properties
and retry budget. -/
def sampleBuild (lp64 big_endian : Bool) (cnt : Nat) : Build where
  LP64 := lp64
  BIG_ENDIAN := big_endian
  RSH_BYTE_ACC_CTL := 0x490
  RSH_BYTE_ACC_INTERLOCK := 0x4b8
  RSH_BYTE_ACC_ADDR := 0x4a8
  RSH_BYTE_ACC_RDAT := 0x4a0
  RSH_BYTE_ACC_WDAT := 0x498
  RSHIM_CHANNEL := 1
  RSH_BYTE_ACC_PENDING := 0x20000000
  RSH_BYTE_ACC_SIZE_4BYTE := 0x6
  RSH_BYTE_ACC_READ_TRIGGER := 0x50000000
  LOCK_RETRY_CNT := cnt
  RSH_SCRATCHPAD := 0x20
  RSH_CHANNEL_BASE := fun chan => chan <<< (16 : Int)

/-- A PCI function of the given device id at 03:00.0 with an assigned BAR. -/
def samplePci (device_id : Nat) : pci_dev :=
  { vendor_id := TILERA_VENDOR_ID, device_id := device_id, bus := 3, dev := 0, func := 0,
    base_addr0 := 0xe0000000, size0 := 0x1000000 }

/-- A backend as the probe leaves it for `samplePci`, with a given write
counter. -/
def sampleDev (device_id : Nat) (count : Nat) : rshim_pcie :=
  { new_record (pcie_dev_name (samplePci device_id)) with
    pci_dev := samplePci device_id, write_count := count,
    rshim_regs := some 0x7f0000000000, pci_fd := 3 }

/-- State of a Byte Access Widget that keeps what is stored through it: the
address register, the words stored through the write-data register for each
target address (oldest first), and the words queued in the read-data
register. -/
structure Baw where
  addr : Nat
  stored : List (Nat × List Nat)
  rdat : List Nat
deriving DecidableEq, Repr

/-- The words kept for a target address. -/
def Baw.words (s : Baw) (a : Nat) : List Nat :=
  match s.stored.find? (fun e => e.1 = a) with
  | some e => e.2
  | none => []

/-- A Byte Access Widget whose pending bit always reads clear, whose interlock
is always granted, and whose read-data register hands back, after a read
trigger, the last two words stored through the write-data register for the
target address, in the order they were stored. -/
def bawBus (b : Build) : Bus Baw where
  load s off :=
    if off = regoff b.RSH_BYTE_ACC_RDAT b.RSHIM_CHANNEL then
      (s.rdat.headD 0, { s with rdat := s.rdat.tail })
    else if off = regoff b.RSH_BYTE_ACC_INTERLOCK b.RSHIM_CHANNEL then (1, s)
    else (0, s)
  store s off v :=
    if off = regoff b.RSH_BYTE_ACC_ADDR b.RSHIM_CHANNEL then { s with addr := v }
    else if off = regoff b.RSH_BYTE_ACC_WDAT b.RSHIM_CHANNEL then
      { s with stored := (s.addr, s.words s.addr ++ [v]) ::
          s.stored.filter (fun e => e.1 ≠ s.addr) }
    else if off = regoff b.RSH_BYTE_ACC_CTL b.RSHIM_CHANNEL then
      if v &&& b.RSH_BYTE_ACC_READ_TRIGGER = b.RSH_BYTE_ACC_READ_TRIGGER then
        { s with rdat := (s.words s.addr).drop ((s.words s.addr).length - 2) }
      else s
    else s

/-- A backend whose register window is not active. -/
def detachedDev : rshim_pcie :=
  { sampleDev BLUEFIELD1_DEVICE_ID 15 with
    bd := { (sampleDev BLUEFIELD1_DEVICE_ID 15).bd with has_rshim := false } }

/-- An empty world: no record, nothing registered. -/
def World.empty : World :=
  { heap := [], registry := [], register_calls := 0, notify_calls := 0 }

/-- An environment in which every step of the probe succeeds on Linux. -/
def sampleEnv : Env where
  allow := fun _ => true
  calloc_ok := true
  freebsd := false
  open_fd := 3
  pagesize := 4096
  mmap := fun _ _ => 0x7f0000000000
  MAP_FAILED := 2 ^ 64 - 1
  ioctl := none
  register_rc := 0
  notify_rc := 0

/-! ## Theorems -/


/-! ### Traces of the accessors -/

@[simp] theorem readl_trace (bus : Bus σ) (w : Window σ) (off : Int) :
    (readl bus w off).2.trace = w.trace ++ [Access.load off (readl bus w off).1] := rfl

@[simp] theorem writel_trace (bus : Bus σ) (v : Nat) (w : Window σ) (off : Int) :
    (writel bus v w off).trace = w.trace ++ [Access.store off (v % 2 ^ 32)] := rfl

@[simp] theorem readq_trace (bus : Bus σ) (w : Window σ) (off : Int) :
    (readq bus w off).2.trace = w.trace ++ [Access.load off (readq bus w off).1] := rfl

@[simp] theorem writeq_trace (bus : Bus σ) (v : Nat) (w : Window σ) (off : Int) :
    (writeq bus v w off).trace = w.trace ++ [Access.store off (v % 2 ^ 64)] := rfl

/-! ### The two busy-wait loops -/

theorem pending_wait_loop_spec (bus : Bus σ) (b : Build) :
    ∀ (fuel retry : Nat) (w : Window σ), 1 ≤ fuel → b.LOCK_RETRY_CNT + 1 ≤ retry + fuel →
      ∃ rc w' t, pending_wait_loop bus b fuel retry w = some (rc, w') ∧
        w'.trace = w.trace ++ t ∧ t ≠ [] ∧
        (∀ a ∈ t, ∃ v, a = Access.load (regoff b.RSH_BYTE_ACC_CTL b.RSHIM_CHANNEL) v) ∧
        (rc = 0 ∨ rc = -ETIMEDOUT) := by
  intro fuel
  induction fuel with
  | zero => intro retry w h; omega
  | succ n ih =>
    intro retry w _ hle
    simp only [pending_wait_loop]
    by_cases hto : retry + 1 > b.LOCK_RETRY_CNT
    · rw [if_pos hto]
      exact ⟨-ETIMEDOUT, _, _, rfl, readl_trace _ _ _, by simp,
        fun a ha => ⟨_, List.mem_singleton.mp ha⟩, Or.inr rfl⟩
    · rw [if_neg hto]
      by_cases hp : (readl bus w (regoff b.RSH_BYTE_ACC_CTL b.RSHIM_CHANNEL)).1 &&&
          b.RSH_BYTE_ACC_PENDING ≠ 0
      · rw [if_pos hp]
        obtain ⟨rc, w', t, he, ht, _, hall, hrc⟩ :=
          ih (retry + 1) (readl bus w (regoff b.RSH_BYTE_ACC_CTL b.RSHIM_CHANNEL)).2
            (by omega) (by omega)
        refine ⟨rc, w', Access.load (regoff b.RSH_BYTE_ACC_CTL b.RSHIM_CHANNEL)
          (readl bus w (regoff b.RSH_BYTE_ACC_CTL b.RSHIM_CHANNEL)).1 :: t, he, ?_, by simp,
          ?_, hrc⟩
        · rw [ht]; simp
        · intro a ha
          rcases List.mem_cons.mp ha with h | h
          · exact ⟨_, h⟩
          · exact hall a h
      · rw [if_neg hp]
        exact ⟨0, _, _, rfl, readl_trace _ _ _, by simp,
          fun a ha => ⟨_, List.mem_singleton.mp ha⟩, Or.inl rfl⟩

theorem pending_wait_spec (bus : Bus σ) (b : Build) (w : Window σ) :
    ∃ rc w' t, rshim_byte_acc_pending_wait bus b w = some (rc, w') ∧
      w'.trace = w.trace ++ t ∧ t ≠ [] ∧
      (∀ a ∈ t, ∃ v, a = Access.load (regoff b.RSH_BYTE_ACC_CTL b.RSHIM_CHANNEL) v) ∧
      (rc = 0 ∨ rc = -ETIMEDOUT) :=
  pending_wait_loop_spec bus b _ 0 w (by omega) (by omega)

theorem lock_acquire_loop_spec (bus : Bus σ) (b : Build) :
    ∀ (fuel retry : Nat) (w : Window σ), 1 ≤ fuel → b.LOCK_RETRY_CNT + 1 ≤ retry + fuel →
      ∃ rc w' t, lock_acquire_loop bus b fuel retry w = some (rc, w') ∧
        w'.trace = w.trace ++ t ∧
        (∀ a ∈ t, ∃ v, a = Access.load (regoff b.RSH_BYTE_ACC_INTERLOCK b.RSHIM_CHANNEL) v) ∧
        (rc = 0 ∨ rc = -ETIMEDOUT) := by
  intro fuel
  induction fuel with
  | zero => intro retry w h; omega
  | succ n ih =>
    intro retry w _ hle
    simp only [lock_acquire_loop]
    by_cases hto : retry + 1 > b.LOCK_RETRY_CNT
    · rw [if_pos hto]
      exact ⟨-ETIMEDOUT, w, [], rfl, by simp, by simp, Or.inr rfl⟩
    · rw [if_neg hto]
      by_cases hp : (readl bus w (regoff b.RSH_BYTE_ACC_INTERLOCK b.RSHIM_CHANNEL)).1 &&&
          0x1 = 0
      · rw [if_pos hp]
        obtain ⟨rc, w', t, he, ht, hall, hrc⟩ :=
          ih (retry + 1) (readl bus w (regoff b.RSH_BYTE_ACC_INTERLOCK b.RSHIM_CHANNEL)).2
            (by omega) (by omega)
        refine ⟨rc, w', Access.load (regoff b.RSH_BYTE_ACC_INTERLOCK b.RSHIM_CHANNEL)
          (readl bus w (regoff b.RSH_BYTE_ACC_INTERLOCK b.RSHIM_CHANNEL)).1 :: t, he, ?_,
          ?_, hrc⟩
        · rw [ht]; simp
        · intro a ha
          rcases List.mem_cons.mp ha with h | h
          · exact ⟨_, h⟩
          · exact hall a h
      · rw [if_neg hp]
        exact ⟨0, _, _, rfl, readl_trace _ _ _,
          fun a ha => ⟨_, List.mem_singleton.mp ha⟩, Or.inl rfl⟩

theorem lock_acquire_spec (bus : Bus σ) (b : Build) (w : Window σ) :
    ∃ rc w' t, rshim_byte_acc_lock_acquire bus b w = some (rc, w') ∧
      w'.trace = w.trace ++ t ∧
      (∀ a ∈ t, ∃ v, a = Access.load (regoff b.RSH_BYTE_ACC_INTERLOCK b.RSHIM_CHANNEL) v) ∧
      (rc = 0 ∨ rc = -ETIMEDOUT) :=
  lock_acquire_loop_spec bus b _ 0 w (by omega) (by omega)


/-! ### Measures on traces -/

theorem etimedout_ne_zero : ETIMEDOUT ≠ 0 := by decide

theorem stores_pending_append (l1 l2 : List Access) :
    ∀ cur, stores_pending cur (l1 ++ l2) = stores_pending (stores_pending cur l1) l2 := by
  induction l1 with
  | nil => intro cur; rfl
  | cons a l ih =>
    intro cur
    cases a <;> simp [stores_pending, ih]

theorem stores_bounded_le (n : Nat) (l : List Access) :
    ∀ cur, stores_bounded n cur l = true → cur ≤ n := by
  induction l with
  | nil => intro cur h; simpa [stores_bounded] using h
  | cons a l ih =>
    intro cur h
    cases a with
    | load o v => simp [stores_bounded] at h; exact h.1
    | store o v => simp [stores_bounded] at h; exact h.1
    | read c r => simp [stores_bounded] at h; exact ih cur h

theorem stores_bounded_append (n : Nat) (l1 l2 : List Access) :
    ∀ cur, stores_bounded n cur (l1 ++ l2) = true ↔
      stores_bounded n cur l1 = true ∧ stores_bounded n (stores_pending cur l1) l2 = true := by
  induction l1 with
  | nil =>
    intro cur
    simp only [List.nil_append, stores_bounded, stores_pending, decide_eq_true_eq]
    exact ⟨fun h => ⟨stores_bounded_le n l2 cur h, h⟩, fun h => h.2⟩
  | cons a l ih =>
    intro cur
    cases a <;> simp [stores_bounded, stores_pending, ih, and_assoc]

theorem polls_append {p q : List Access} (hp : Polls p) (hq : ∀ a ∈ q, a.isLoad = true) :
    Polls (p ++ q) := by
  refine ⟨by simp [hp.1], ?_⟩
  intro a ha
  rcases List.mem_append.mp ha with h | h
  · exact hp.2 a h
  · exact hq a h

theorem polls_pending {p : List Access} (hp : Polls p) (cur : Nat) :
    stores_pending cur p = 0 := by
  obtain ⟨hne, hall⟩ := hp
  induction p generalizing cur with
  | nil => exact absurd rfl hne
  | cons a l ih =>
    cases a with
    | load o v =>
      cases l with
      | nil => rfl
      | cons a2 l2 =>
        simp only [stores_pending]
        exact ih 0 (by simp) (fun a ha => hall a (List.mem_cons_of_mem _ ha))
    | store o v => simpa [Access.isLoad] using hall (Access.store o v) (List.mem_cons_self _ _)
    | read c r => simpa [Access.isLoad] using hall (Access.read c r) (List.mem_cons_self _ _)

theorem polls_bounded {p : List Access} (hp : Polls p) (n cur : Nat) :
    stores_bounded n cur p = true ↔ cur ≤ n := by
  obtain ⟨hne, hall⟩ := hp
  induction p generalizing cur with
  | nil => exact absurd rfl hne
  | cons a l ih =>
    cases a with
    | load o v =>
      cases l with
      | nil => simp [stores_bounded]
      | cons a2 l2 =>
        have := ih 0 (by simp) (fun a ha => hall a (List.mem_cons_of_mem _ ha))
        simp only [stores_bounded, Bool.and_eq_true, decide_eq_true_eq, this]
        omega
    | store o v => simpa [Access.isLoad] using hall (Access.store o v) (List.mem_cons_self _ _)
    | read c r => simpa [Access.isLoad] using hall (Access.read c r) (List.mem_cons_self _ _)

theorem polls_no_read {p : List Access} (hp : Polls p) : ∀ a ∈ p, a.isRead = false := by
  intro a ha
  have := hp.2 a ha
  cases a <;> simp_all [Access.isLoad, Access.isRead]

theorem polls_of_loads {off : Int} {t : List Access} (hne : t ≠ [])
    (h : ∀ a ∈ t, ∃ v, a = Access.load off v) : Polls t := by
  refine ⟨hne, ?_⟩
  intro a ha
  obtain ⟨v, rfl⟩ := h a ha
  rfl

theorem exit_release_trace (bus : Bus σ) (b : Build) (dev : rshim_pcie) (w : Window σ) :
    (exit_release bus b dev w).trace = w.trace ++ released b dev := by
  unfold exit_release released
  split <;> simp [rshim_byte_acc_lock_release]

/-! ### The two routines after their first steps -/

theorem byte_acc_read_enter (bus : Bus σ) (b : Build) (dev : rshim_pcie) (w : Window σ)
    (addr : Int) (result : Nat) :
    rshim_byte_acc_read bus b dev w addr result =
      match byte_acc_enter bus b dev w with
      | none => none
      | some (rc, w) =>
        if rc ≠ 0 then some (rc, result, w)
        else
          match rshim_byte_acc_pending_wait bus b
            (writel bus (b.RSH_BYTE_ACC_SIZE_4BYTE ||| b.RSH_BYTE_ACC_READ_TRIGGER)
              (writel bus (u32 addr) w (regoff b.RSH_BYTE_ACC_ADDR b.RSHIM_CHANNEL))
              (regoff b.RSH_BYTE_ACC_CTL b.RSHIM_CHANNEL)) with
          | none => none
          | some (rc, w) =>
            if rc ≠ 0 then some (rc, result, exit_release bus b dev w)
            else
              match rshim_byte_acc_pending_wait bus b
                (readl bus w (regoff b.RSH_BYTE_ACC_RDAT b.RSHIM_CHANNEL)).2 with
              | none => none
              | some (rc, w2) =>
                if rc ≠ 0 then some (rc, result, exit_release bus b dev w2)
                else
                  some (rc,
                    be64toh b
                      (((readl bus w (regoff b.RSH_BYTE_ACC_RDAT b.RSHIM_CHANNEL)).1 <<< 32) %
                          2 ^ 64 |||
                        (readl bus w2 (regoff b.RSH_BYTE_ACC_RDAT b.RSHIM_CHANNEL)).1),
                    exit_release bus b dev
                      (readl bus w2 (regoff b.RSH_BYTE_ACC_RDAT b.RSHIM_CHANNEL)).2) := by
  unfold rshim_byte_acc_read byte_acc_enter
  cases h : rshim_byte_acc_pending_wait bus b w with
  | none => rfl
  | some p =>
    obtain ⟨rc, w1⟩ := p
    by_cases hrc : rc = 0
    · subst hrc
      by_cases hid : dev.pci_dev.device_id = BLUEFIELD2_DEVICE_ID
      · simp only [ne_eq, not_true_eq_false, if_false, hid, if_true]
      · simp only [ne_eq, not_true_eq_false, if_false, hid]
    · simp only [ne_eq, hrc, not_false_eq_true, if_true]

theorem byte_acc_write_enter (bus : Bus σ) (b : Build) (dev : rshim_pcie) (w : Window σ)
    (addr : Int) (value : Nat) :
    rshim_byte_acc_write bus b dev w addr value =
      match byte_acc_enter bus b dev w with
      | none => none
      | some (rc, w) =>
        if rc ≠ 0 then some (rc, w)
        else
          match rshim_byte_acc_pending_wait bus b
            (writel bus (value >>> 32)
              (writel bus b.RSH_BYTE_ACC_SIZE_4BYTE
                (writel bus (u32 addr) w (regoff b.RSH_BYTE_ACC_ADDR b.RSHIM_CHANNEL))
                (regoff b.RSH_BYTE_ACC_CTL b.RSHIM_CHANNEL))
              (regoff b.RSH_BYTE_ACC_WDAT b.RSHIM_CHANNEL)) with
          | none => none
          | some (rc, w) =>
            if rc ≠ 0 then some (rc, exit_release bus b dev w)
            else
              some (rc, exit_release bus b dev
                (writel bus value w (regoff b.RSH_BYTE_ACC_WDAT b.RSHIM_CHANNEL))) := by
  unfold rshim_byte_acc_write byte_acc_enter
  cases h : rshim_byte_acc_pending_wait bus b w with
  | none => rfl
  | some p =>
    obtain ⟨rc, w1⟩ := p
    by_cases hrc : rc = 0
    · subst hrc
      by_cases hid : dev.pci_dev.device_id = BLUEFIELD2_DEVICE_ID
      · simp only [ne_eq, not_true_eq_false, if_false, hid, if_true]
      · simp only [ne_eq, not_true_eq_false, if_false, hid]
    · simp only [ne_eq, hrc, not_false_eq_true, if_true]

/-! ### Shape of the traces of the Byte Access Widget routines -/

theorem byte_acc_enter_spec (bus : Bus σ) (b : Build) (dev : rshim_pcie) (w : Window σ) :
    ∃ rc w' t, byte_acc_enter bus b dev w = some (rc, w') ∧
      w'.trace = w.trace ++ t ∧ Polls t ∧ (rc = 0 ∨ rc = -ETIMEDOUT) := by
  obtain ⟨rc, w1, t1, h1, ht1, hne1, hall1, hrc1⟩ := pending_wait_spec bus b w
  have hp1 : Polls t1 := polls_of_loads hne1 hall1
  unfold byte_acc_enter
  rw [h1]
  rcases hrc1 with rfl | rfl
  · by_cases hid : dev.pci_dev.device_id = BLUEFIELD2_DEVICE_ID
    · obtain ⟨rc, w2, t2, h2, ht2, hall2, hrc2⟩ := lock_acquire_spec bus b w1
      refine ⟨rc, w2, t1 ++ t2, by simp [hid, h2], by rw [ht2, ht1, List.append_assoc], ?_, hrc2⟩
      refine polls_append hp1 ?_
      intro a ha
      obtain ⟨v, rfl⟩ := hall2 a ha
      rfl
    · exact ⟨0, w1, t1, by simp [hid], ht1, hp1, Or.inl rfl⟩
  · exact ⟨-ETIMEDOUT, w1, t1, by simp [etimedout_ne_zero], ht1, hp1, Or.inr rfl⟩

theorem byte_acc_write_shape (bus : Bus σ) (b : Build) (dev : rshim_pcie) (w : Window σ)
    (addr : Int) (value : Nat) :
    ∃ rc w' t, rshim_byte_acc_write bus b dev w addr value = some (rc, w') ∧
      w'.trace = w.trace ++ t ∧
      ((rc = -ETIMEDOUT ∧ Polls t) ∨
       ∃ p q s1 s2 s3, Polls p ∧ Polls q ∧ s1.isStore = true ∧ s2.isStore = true ∧
         s3.isStore = true ∧
         ((rc = -ETIMEDOUT ∧ t = p ++ [s1, s2, s3] ++ q ++ released b dev) ∨
          (rc = 0 ∧ t = p ++ [s1, s2, s3] ++ q ++
            [Access.store (regoff b.RSH_BYTE_ACC_WDAT b.RSHIM_CHANNEL) (value % 2 ^ 32)] ++
            released b dev))) := by
  obtain ⟨rc, w1, t1, h1, ht1, hp1, hrc1⟩ := byte_acc_enter_spec bus b dev w
  rw [byte_acc_write_enter, h1]
  rcases hrc1 with rfl | rfl
  · simp only [ne_eq, not_true_eq_false, if_false]
    obtain ⟨rc, w2, t2, h2, ht2, hne2, hall2, hrc2⟩ := pending_wait_spec bus b
      (writel bus (value >>> 32)
        (writel bus b.RSH_BYTE_ACC_SIZE_4BYTE
          (writel bus (u32 addr) w1 (regoff b.RSH_BYTE_ACC_ADDR b.RSHIM_CHANNEL))
          (regoff b.RSH_BYTE_ACC_CTL b.RSHIM_CHANNEL))
        (regoff b.RSH_BYTE_ACC_WDAT b.RSHIM_CHANNEL))
    have hp2 : Polls t2 := polls_of_loads hne2 hall2
    rw [h2]
    rcases hrc2 with rfl | rfl
    · refine ⟨0, exit_release bus b dev
          (writel bus value w2 (regoff b.RSH_BYTE_ACC_WDAT b.RSHIM_CHANNEL)),
        t1 ++ [Access.store (regoff b.RSH_BYTE_ACC_ADDR b.RSHIM_CHANNEL) (u32 addr % 2 ^ 32),
          Access.store (regoff b.RSH_BYTE_ACC_CTL b.RSHIM_CHANNEL)
            (b.RSH_BYTE_ACC_SIZE_4BYTE % 2 ^ 32),
          Access.store (regoff b.RSH_BYTE_ACC_WDAT b.RSHIM_CHANNEL) (value >>> 32 % 2 ^ 32)] ++
          t2 ++ [Access.store (regoff b.RSH_BYTE_ACC_WDAT b.RSHIM_CHANNEL) (value % 2 ^ 32)] ++
          released b dev, by simp, ?_,
        Or.inr ⟨t1, t2, _, _, _, hp1, hp2, ?_, ?_, ?_, Or.inr ⟨rfl, rfl⟩⟩⟩
      all_goals first
        | rfl
        | simp only [exit_release_trace, writel_trace, ht2, ht1, List.append_assoc,
            List.singleton_append, List.cons_append, List.nil_append]
    · refine ⟨-ETIMEDOUT, exit_release bus b dev w2,
        t1 ++ [Access.store (regoff b.RSH_BYTE_ACC_ADDR b.RSHIM_CHANNEL) (u32 addr % 2 ^ 32),
          Access.store (regoff b.RSH_BYTE_ACC_CTL b.RSHIM_CHANNEL)
            (b.RSH_BYTE_ACC_SIZE_4BYTE % 2 ^ 32),
          Access.store (regoff b.RSH_BYTE_ACC_WDAT b.RSHIM_CHANNEL) (value >>> 32 % 2 ^ 32)] ++
          t2 ++ released b dev, by simp [etimedout_ne_zero], ?_,
        Or.inr ⟨t1, t2, _, _, _, hp1, hp2, ?_, ?_, ?_, Or.inl ⟨rfl, rfl⟩⟩⟩
      all_goals first
        | rfl
        | simp only [exit_release_trace, writel_trace, ht2, ht1, List.append_assoc,
            List.singleton_append, List.cons_append, List.nil_append]
  · exact ⟨-ETIMEDOUT, w1, t1, by simp [etimedout_ne_zero], ht1, Or.inl ⟨rfl, hp1⟩⟩

theorem byte_acc_read_shape (bus : Bus σ) (b : Build) (dev : rshim_pcie) (w : Window σ)
    (addr : Int) (result : Nat) :
    ∃ rc res w' t, rshim_byte_acc_read bus b dev w addr result = some (rc, res, w') ∧
      w'.trace = w.trace ++ t ∧ (rc = 0 ∨ rc = -ETIMEDOUT) ∧
      (Polls t ∨
       ∃ p q s1 s2, Polls p ∧ Polls q ∧ s1.isStore = true ∧ s2.isStore = true ∧
         t = p ++ [s1, s2] ++ q ++ released b dev) := by
  obtain ⟨rc, w1, t1, h1, ht1, hp1, hrc1⟩ := byte_acc_enter_spec bus b dev w
  rw [byte_acc_read_enter, h1]
  rcases hrc1 with rfl | rfl
  · simp only [ne_eq, not_true_eq_false, if_false]
    obtain ⟨rc, w2, t2, h2, ht2, hne2, hall2, hrc2⟩ := pending_wait_spec bus b
      (writel bus (b.RSH_BYTE_ACC_SIZE_4BYTE ||| b.RSH_BYTE_ACC_READ_TRIGGER)
        (writel bus (u32 addr) w1 (regoff b.RSH_BYTE_ACC_ADDR b.RSHIM_CHANNEL))
        (regoff b.RSH_BYTE_ACC_CTL b.RSHIM_CHANNEL))
    have hp2 : Polls t2 := polls_of_loads hne2 hall2
    have hone : ∀ (o : Int) (v : Nat), ∀ a ∈ [Access.load o v], a.isLoad = true := by
      intro o v a ha
      rw [List.mem_singleton.mp ha]
      rfl
    rw [h2]
    rcases hrc2 with rfl | rfl
    · simp only [ne_eq, not_true_eq_false, if_false]
      obtain ⟨rc, w3, t3, h3, ht3, hne3, hall3, hrc3⟩ := pending_wait_spec bus b
        (readl bus w2 (regoff b.RSH_BYTE_ACC_RDAT b.RSHIM_CHANNEL)).2
      have hp3 : Polls t3 := polls_of_loads hne3 hall3
      rw [h3]
      rcases hrc3 with rfl | rfl
      · simp only [ne_eq, not_true_eq_false, if_false]
        refine ⟨0, _, _, _, rfl, ?_, Or.inl rfl,
          Or.inr ⟨t1, t2 ++ [Access.load (regoff b.RSH_BYTE_ACC_RDAT b.RSHIM_CHANNEL)
              (readl bus w2 (regoff b.RSH_BYTE_ACC_RDAT b.RSHIM_CHANNEL)).1] ++ t3 ++
              [Access.load (regoff b.RSH_BYTE_ACC_RDAT b.RSHIM_CHANNEL)
                (readl bus w3 (regoff b.RSH_BYTE_ACC_RDAT b.RSHIM_CHANNEL)).1],
            Access.store (regoff b.RSH_BYTE_ACC_ADDR b.RSHIM_CHANNEL) (u32 addr % 2 ^ 32),
            Access.store (regoff b.RSH_BYTE_ACC_CTL b.RSHIM_CHANNEL)
              ((b.RSH_BYTE_ACC_SIZE_4BYTE ||| b.RSH_BYTE_ACC_READ_TRIGGER) % 2 ^ 32),
            hp1, polls_append (polls_append (polls_append hp2 (hone _ _)) hp3.2) (hone _ _),
            rfl, rfl, rfl⟩⟩
        simp only [exit_release_trace, writel_trace, readl_trace, ht3, ht2, ht1,
          List.append_assoc, List.singleton_append, List.cons_append, List.nil_append]
      · simp only [ne_eq, neg_eq_zero, etimedout_ne_zero, not_false_eq_true, if_true]
        refine ⟨-ETIMEDOUT, _, _, _, rfl, ?_, Or.inr rfl,
          Or.inr ⟨t1, t2 ++ [Access.load (regoff b.RSH_BYTE_ACC_RDAT b.RSHIM_CHANNEL)
              (readl bus w2 (regoff b.RSH_BYTE_ACC_RDAT b.RSHIM_CHANNEL)).1] ++ t3,
            Access.store (regoff b.RSH_BYTE_ACC_ADDR b.RSHIM_CHANNEL) (u32 addr % 2 ^ 32),
            Access.store (regoff b.RSH_BYTE_ACC_CTL b.RSHIM_CHANNEL)
              ((b.RSH_BYTE_ACC_SIZE_4BYTE ||| b.RSH_BYTE_ACC_READ_TRIGGER) % 2 ^ 32),
            hp1, polls_append (polls_append hp2 (hone _ _)) hp3.2, rfl, rfl, rfl⟩⟩
        simp only [exit_release_trace, writel_trace, readl_trace, ht3, ht2, ht1,
          List.append_assoc, List.singleton_append, List.cons_append, List.nil_append]
    · simp only [ne_eq, neg_eq_zero, etimedout_ne_zero, not_false_eq_true, if_true]
      refine ⟨-ETIMEDOUT, _, _, _, rfl, ?_, Or.inr rfl,
        Or.inr ⟨t1, t2,
          Access.store (regoff b.RSH_BYTE_ACC_ADDR b.RSHIM_CHANNEL) (u32 addr % 2 ^ 32),
          Access.store (regoff b.RSH_BYTE_ACC_CTL b.RSHIM_CHANNEL)
            ((b.RSH_BYTE_ACC_SIZE_4BYTE ||| b.RSH_BYTE_ACC_READ_TRIGGER) % 2 ^ 32),
          hp1, hp2, rfl, rfl, rfl⟩⟩
      simp only [exit_release_trace, writel_trace, ht2, ht1, List.append_assoc,
        List.singleton_append, List.cons_append, List.nil_append]
  · exact ⟨-ETIMEDOUT, result, w1, t1, by simp [etimedout_ne_zero], ht1, Or.inr rfl,
      Or.inl hp1⟩

theorem stores_pending_stores (ss : List Access) (h : ∀ a ∈ ss, a.isStore = true) :
    ∀ cur, stores_pending cur ss = cur + ss.length := by
  induction ss with
  | nil => intro cur; rfl
  | cons a l ih =>
    intro cur
    have hl := ih (fun x hx => h x (List.mem_cons_of_mem _ hx))
    cases a with
    | store o v => simp only [stores_pending, hl, List.length_cons]; omega
    | load o v => simpa [Access.isStore] using h (Access.load o v) (List.mem_cons_self _ _)
    | read c r => simpa [Access.isStore] using h (Access.read c r) (List.mem_cons_self _ _)

theorem stores_bounded_stores (n : Nat) (ss : List Access) (h : ∀ a ∈ ss, a.isStore = true) :
    ∀ cur, stores_bounded n cur ss = true ↔ cur + ss.length ≤ n := by
  induction ss with
  | nil => intro cur; simp [stores_bounded]
  | cons a l ih =>
    intro cur
    have hl := ih (fun x hx => h x (List.mem_cons_of_mem _ hx))
    cases a with
    | store o v =>
      simp only [stores_bounded, hl, List.length_cons, Bool.and_eq_true, decide_eq_true_eq]
      omega
    | load o v => simpa [Access.isStore] using h (Access.load o v) (List.mem_cons_self _ _)
    | read c r => simpa [Access.isStore] using h (Access.read c r) (List.mem_cons_self _ _)

theorem store_not_read {a : Access} (h : a.isStore = true) : a.isRead = false := by
  cases a <;> simp_all [Access.isStore, Access.isRead]

theorem released_no_read (b : Build) (dev : rshim_pcie) :
    ∀ a ∈ released b dev, a.isRead = false := by
  intro a ha
  unfold released at ha
  split at ha
  · rw [List.mem_singleton.mp ha]; rfl
  · simp at ha

theorem released_other (b : Build) (dev : rshim_pcie)
    (h : dev.pci_dev.device_id ≠ BLUEFIELD2_DEVICE_ID) : released b dev = [] := by
  simp [released, h]

/-- Trace of `rshim_byte_acc_write`: the call returns, its code is zero or the
timeout, it leaves no read mark, and on a device without interlock it issues
at most three stores in a row and ends with at most one store after its last
load. -/
theorem byte_acc_write_quiet (bus : Bus σ) (b : Build) (dev : rshim_pcie) (w : Window σ)
    (addr : Int) (value : Nat) :
    ∃ rc w' t, rshim_byte_acc_write bus b dev w addr value = some (rc, w') ∧
      w'.trace = w.trace ++ t ∧ (rc = 0 ∨ rc = -ETIMEDOUT) ∧
      (∀ a ∈ t, a.isRead = false) ∧
      (dev.pci_dev.device_id ≠ BLUEFIELD2_DEVICE_ID → ∀ n cur, 3 ≤ n → cur ≤ n →
        stores_bounded n cur t = true ∧ stores_pending cur t ≤ 1) := by
  obtain ⟨rc, w', t, he, ht, hshape⟩ := byte_acc_write_shape bus b dev w addr value
  refine ⟨rc, w', t, he, ht, ?_, ?_, ?_⟩
  · rcases hshape with ⟨h, _⟩ | ⟨p, q, s1, s2, s3, _, _, _, _, _, ⟨h, _⟩ | ⟨h, _⟩⟩
    · exact Or.inr h
    · exact Or.inr h
    · exact Or.inl h
  · rcases hshape with ⟨_, hp⟩ | ⟨p, q, s1, s2, s3, hp, hq, h1, h2, h3, ⟨_, rfl⟩ | ⟨_, rfl⟩⟩
    · exact polls_no_read hp
    · intro a ha
      simp only [List.mem_append, List.mem_cons, List.mem_singleton, List.not_mem_nil,
        or_false] at ha
      rcases ha with ((ha | ha | ha | ha) | ha) | ha
      · exact polls_no_read hp a ha
      · rw [ha]; exact store_not_read h1
      · rw [ha]; exact store_not_read h2
      · rw [ha]; exact store_not_read h3
      · exact polls_no_read hq a ha
      · exact released_no_read b dev a ha
    · intro a ha
      simp only [List.mem_append, List.mem_cons, List.mem_singleton, List.not_mem_nil,
        or_false] at ha
      rcases ha with (((ha | ha | ha | ha) | ha) | ha) | ha
      · exact polls_no_read hp a ha
      · rw [ha]; exact store_not_read h1
      · rw [ha]; exact store_not_read h2
      · rw [ha]; exact store_not_read h3
      · exact polls_no_read hq a ha
      · rw [ha]; rfl
      · exact released_no_read b dev a ha
  · intro hid n cur hn hcur
    rcases hshape with ⟨_, hp⟩ | ⟨p, q, s1, s2, s3, hp, hq, h1, h2, h3, ⟨_, rfl⟩ | ⟨_, rfl⟩⟩
    · exact ⟨(polls_bounded hp n cur).mpr hcur, by rw [polls_pending hp]; omega⟩
    · have h3s : ∀ a ∈ [s1, s2, s3], a.isStore = true := by
        intro a ha
        simp only [List.mem_cons, List.mem_singleton, List.not_mem_nil, or_false] at ha
        rcases ha with rfl | rfl | rfl <;> assumption
      rw [released_other b dev hid]
      simp only [List.append_nil, stores_bounded_append, stores_pending_append, polls_bounded hp,
        polls_pending hp, polls_bounded hq, polls_pending hq, stores_bounded_stores n _ h3s,
        stores_pending_stores _ h3s, List.length_cons, List.length_nil]
      omega
    · have h3s : ∀ a ∈ [s1, s2, s3], a.isStore = true := by
        intro a ha
        simp only [List.mem_cons, List.mem_singleton, List.not_mem_nil, or_false] at ha
        rcases ha with rfl | rfl | rfl <;> assumption
      rw [released_other b dev hid]
      simp only [List.append_nil, stores_bounded_append, stores_pending_append, polls_bounded hp,
        polls_pending hp, polls_bounded hq, polls_pending hq, stores_bounded_stores n _ h3s,
        stores_pending_stores _ h3s, List.length_cons, List.length_nil, stores_bounded,
        stores_pending, Bool.and_eq_true, decide_eq_true_eq]
      omega

/-- Trace of `rshim_byte_acc_read`: the call returns, its code is zero or the
timeout, it leaves no read mark, and on a device without interlock it issues
at most two stores in a row and ends with a load. -/
theorem byte_acc_read_quiet (bus : Bus σ) (b : Build) (dev : rshim_pcie) (w : Window σ)
    (addr : Int) (result : Nat) :
    ∃ rc res w' t, rshim_byte_acc_read bus b dev w addr result = some (rc, res, w') ∧
      w'.trace = w.trace ++ t ∧ (rc = 0 ∨ rc = -ETIMEDOUT) ∧
      (∀ a ∈ t, a.isRead = false) ∧
      (dev.pci_dev.device_id ≠ BLUEFIELD2_DEVICE_ID → ∀ n cur, 3 ≤ n → cur ≤ n →
        stores_bounded n cur t = true ∧ stores_pending cur t ≤ 0) := by
  obtain ⟨rc, res, w', t, he, ht, hrc, hshape⟩ := byte_acc_read_shape bus b dev w addr result
  refine ⟨rc, res, w', t, he, ht, hrc, ?_, ?_⟩
  · rcases hshape with hp | ⟨p, q, s1, s2, hp, hq, h1, h2, rfl⟩
    · exact polls_no_read hp
    · intro a ha
      simp only [List.mem_append, List.mem_cons, List.mem_singleton, List.not_mem_nil,
        or_false] at ha
      rcases ha with ((ha | ha | ha) | ha) | ha
      · exact polls_no_read hp a ha
      · rw [ha]; exact store_not_read h1
      · rw [ha]; exact store_not_read h2
      · exact polls_no_read hq a ha
      · exact released_no_read b dev a ha
  · intro hid n cur hn hcur
    rcases hshape with hp | ⟨p, q, s1, s2, hp, hq, h1, h2, rfl⟩
    · exact ⟨(polls_bounded hp n cur).mpr hcur, by rw [polls_pending hp]⟩
    · have h2s : ∀ a ∈ [s1, s2], a.isStore = true := by
        intro a ha
        simp only [List.mem_cons, List.mem_singleton, List.not_mem_nil, or_false] at ha
        rcases ha with rfl | rfl <;> assumption
      rw [released_other b dev hid]
      simp only [List.append_nil, stores_bounded_append, stores_pending_append, polls_bounded hp,
        polls_pending hp, polls_bounded hq, polls_pending hq, stores_bounded_stores n _ h2s,
        stores_pending_stores _ h2s, List.length_cons, List.length_nil]
      omega

/-! ### The two access routines -/

theorem pcie_write_throttle (bus : Bus σ) (b : Build) (dev : rshim_pcie) (w : Window σ)
    (chan addr : Int) (value : Nat) :
    rshim_pcie_write bus b dev w chan addr value =
      if !dev.bd.has_rshim then some (-ENODEV, dev, w)
      else
        match write_throttle bus b dev w chan with
        | none => none
        | some (dev, w) =>
          if b.LP64 then some (0, dev, writeq bus value w (regoff addr chan))
          else
            match rshim_byte_acc_write bus b dev w (b.RSH_CHANNEL_BASE chan + addr) value with
            | none => none
            | some (rc, w) => some (rc, dev, w) := rfl

/-- Effect of `rshim_pcie_read` on a backend with a register window: the call
returns, resets the write counter, leaves its mark and then the accesses of
one register read. -/
theorem pcie_read_spec (bus : Bus σ) (b : Build) (dev : rshim_pcie) (w : Window σ)
    (chan addr : Int) (result : Nat) (hr : dev.bd.has_rshim = true) :
    ∃ rc res w' t, rshim_pcie_read bus b dev w chan addr result =
        some (rc, res, { dev with write_count := 0 }, w') ∧
      w'.trace = w.trace ++ Access.read chan addr :: t ∧ (rc = 0 ∨ rc = -ETIMEDOUT) ∧
      (∀ a ∈ t, a.isRead = false) ∧
      (b.LP64 = true → rc = 0 ∧ t = [Access.load (regoff addr chan) res]) ∧
      ((b.LP64 = true ∨ dev.pci_dev.device_id ≠ BLUEFIELD2_DEVICE_ID) →
        ∀ n cur, 3 ≤ n → cur ≤ n →
        stores_bounded n cur t = true ∧ stores_pending cur t ≤ 0) := by
  unfold rshim_pcie_read
  simp only [hr, Bool.not_true, Bool.false_eq_true, if_false]
  by_cases hb : b.LP64 = true
  · simp only [hb, if_true]
    refine ⟨0, _, _, _, rfl, ?_, Or.inl rfl, ?_, fun _ => ⟨rfl, rfl⟩, ?_⟩
    · simp
    · intro a ha
      rw [List.mem_singleton.mp ha]; rfl
    · intro _ n cur _ hcur
      simp [stores_bounded, stores_pending, hcur]
  · simp only [hb, if_false]
    obtain ⟨rc, res, w', t, he, ht, hrc, hno, hm⟩ := byte_acc_read_quiet bus b
      { dev with write_count := 0 } { w with trace := w.trace ++ [Access.read chan addr] }
      (b.RSH_CHANNEL_BASE chan + addr) result
    rw [he]
    refine ⟨rc, res, w', t, rfl, ?_, hrc, hno, fun h => absurd h (by simp), ?_⟩
    · rw [ht]; simp
    · intro h
      rcases h with h | h
      · exact absurd h (by simp)
      · exact hm h

/-- Effect of a `rshim_pcie_write` that does not flush: the call returns,
counts the write on the first generation, and issues the accesses of one
register write, without any read mark. -/
theorem pcie_write_plain (bus : Bus σ) (b : Build) (dev : rshim_pcie) (w : Window σ)
    (chan addr : Int) (value : Nat) (hr : dev.bd.has_rshim = true)
    (hc : ¬ (dev.pci_dev.device_id = BLUEFIELD1_DEVICE_ID ∧ dev.write_count = 15)) :
    ∃ rc w' t, rshim_pcie_write bus b dev w chan addr value =
        some (rc,
          if dev.pci_dev.device_id = BLUEFIELD1_DEVICE_ID then
            { dev with write_count := (dev.write_count + 1) % 2 ^ 8 }
          else dev, w') ∧
      w'.trace = w.trace ++ t ∧ (rc = 0 ∨ rc = -ETIMEDOUT) ∧
      (∀ a ∈ t, a.isRead = false) ∧
      (b.LP64 = true → rc = 0 ∧ t = [Access.store (regoff addr chan) (value % 2 ^ 64)]) ∧
      (b.LP64 = false → dev.pci_dev.device_id ≠ BLUEFIELD2_DEVICE_ID →
        ∀ n cur, 3 ≤ n → cur ≤ n →
        stores_bounded n cur t = true ∧ stores_pending cur t ≤ 1) := by
  have hth : write_throttle bus b dev w chan =
      some (if dev.pci_dev.device_id = BLUEFIELD1_DEVICE_ID then
            { dev with write_count := (dev.write_count + 1) % 2 ^ 8 }
          else dev, w) := by
    unfold write_throttle
    by_cases hid : dev.pci_dev.device_id = BLUEFIELD1_DEVICE_ID
    · have : dev.write_count ≠ 15 := fun h => hc ⟨hid, h⟩
      simp [hid, this]
    · simp [hid]
  rw [pcie_write_throttle]
  simp only [hr, Bool.not_true, Bool.false_eq_true, if_false, hth]
  by_cases hb : b.LP64 = true
  · simp only [hb, if_true]
    refine ⟨0, _, _, rfl, writeq_trace _ _ _ _, Or.inl rfl, ?_, fun _ => ⟨rfl, rfl⟩, ?_⟩
    · intro a ha
      rw [List.mem_singleton.mp ha]; rfl
    · intro h; simp [hb] at h
  · simp only [hb, if_false]
    obtain ⟨rc, w', t, he, ht, hrc, hno, hm⟩ := byte_acc_write_quiet bus b
      (if dev.pci_dev.device_id = BLUEFIELD1_DEVICE_ID then
            { dev with write_count := (dev.write_count + 1) % 2 ^ 8 }
          else dev) w (b.RSH_CHANNEL_BASE chan + addr) value
    rw [he]
    refine ⟨rc, w', t, rfl, ht, hrc, hno, fun h => absurd h (by simp), ?_⟩
    intro _ hid
    apply hm
    split <;> exact hid

/-- Effect of a `rshim_pcie_write` that flushes (first generation, fifteen
writes counted): the call returns, leaves the mark and the accesses of a read
of the scratchpad of the same channel, then the accesses of its own register
write, and leaves the counter at one. -/
theorem pcie_write_flush (bus : Bus σ) (b : Build) (dev : rshim_pcie) (w : Window σ)
    (chan addr : Int) (value : Nat) (hr : dev.bd.has_rshim = true)
    (hid : dev.pci_dev.device_id = BLUEFIELD1_DEVICE_ID) (hc : dev.write_count = 15) :
    ∃ rc w' tf ts, rshim_pcie_write bus b dev w chan addr value =
        some (rc, { dev with write_count := 1 }, w') ∧
      w'.trace = w.trace ++ Access.read chan b.RSH_SCRATCHPAD :: (tf ++ ts) ∧
      (rc = 0 ∨ rc = -ETIMEDOUT) ∧
      (∀ a ∈ tf, a.isRead = false) ∧ (∀ a ∈ ts, a.isRead = false) ∧
      (b.LP64 = true → rc = 0 ∧
        (∃ x, tf = [Access.load (regoff b.RSH_SCRATCHPAD chan) x]) ∧
        ts = [Access.store (regoff addr chan) (value % 2 ^ 64)]) ∧
      (∀ n cur, 3 ≤ n → cur ≤ n →
        stores_bounded n cur tf = true ∧ stores_pending cur tf ≤ 0) ∧
      (b.LP64 = false → ∀ n cur, 3 ≤ n → cur ≤ n →
        stores_bounded n cur ts = true ∧ stores_pending cur ts ≤ 1) := by
  have h12 : dev.pci_dev.device_id ≠ BLUEFIELD2_DEVICE_ID := by
    rw [hid]; decide
  obtain ⟨rc1, res1, w1, tf, he1, ht1, _, hno1, hlp1, hm1⟩ :=
    pcie_read_spec bus b dev w chan b.RSH_SCRATCHPAD 0 hr
  have hth : write_throttle bus b dev w chan = some ({ dev with write_count := 1 }, w1) := by
    unfold write_throttle
    simp [hid, hc, he1]
  rw [pcie_write_throttle]
  simp only [hr, Bool.not_true, Bool.false_eq_true, if_false, hth]
  by_cases hb : b.LP64 = true
  · simp only [hb, if_true]
    refine ⟨0, _, tf, [Access.store (regoff addr chan) (value % 2 ^ 64)], rfl, ?_, Or.inl rfl,
      hno1, ?_, fun _ => ⟨rfl, ⟨res1, (hlp1 hb).2⟩, rfl⟩, hm1 (Or.inr h12), ?_⟩
    · simp [ht1]
    · intro a ha
      rw [List.mem_singleton.mp ha]; rfl
    · intro h; simp [hb] at h
  · simp only [hb, if_false]
    obtain ⟨rc, w', ts, he, ht, hrc, hno, hm⟩ := byte_acc_write_quiet bus b
      { dev with write_count := 1 } w1 (b.RSH_CHANNEL_BASE chan + addr) value
    rw [he]
    refine ⟨rc, w', tf, ts, rfl, ?_, hrc, hno1, hno, fun h => absurd h (by simp),
      hm1 (Or.inr h12), fun _ => hm h12⟩
    rw [ht, ht1]; simp

/-! ### Sequences of calls -/

theorem step_throttled (bus : Bus σ) (b : Build) (s : rshim_pcie × Window σ) (op : Op)
    (hid : s.1.pci_dev.device_id = BLUEFIELD1_DEVICE_ID) (hinv : Throttled s) :
    ∃ s', step bus b s op = some s' ∧ s'.1.pci_dev = s.1.pci_dev ∧ s'.1.bd = s.1.bd ∧
      Throttled s' := by
  obtain ⟨dev, w⟩ := s
  obtain ⟨hcnt, hbd, hpend⟩ := hinv
  simp only at hid hcnt hbd hpend
  have h12 : dev.pci_dev.device_id ≠ BLUEFIELD2_DEVICE_ID := by
    rw [hid]; decide
  cases hr : dev.bd.has_rshim with
  | false =>
    cases op with
    | read chan addr =>
      exact ⟨(dev, w), by simp [step, rshim_pcie_read, hr], rfl, rfl, hcnt, hbd, hpend⟩
    | write chan addr value =>
      exact ⟨(dev, w), by simp [step, rshim_pcie_write, hr], rfl, rfl, hcnt, hbd, hpend⟩
  | true =>
    cases op with
    | read chan addr =>
      obtain ⟨rc, res, w', t, he, ht, _, _, _, hm⟩ :=
        pcie_read_spec bus b dev w chan addr 0 hr
      obtain ⟨hb1, hp1⟩ := hm (Or.inr h12) 15 (stores_pending 0 w.trace) (by omega) (by omega)
      refine ⟨({ dev with write_count := 0 }, w'), by simp [step, he], rfl, rfl, ?_⟩
      refine ⟨by simp, ?_, ?_⟩
      · simp only [ht, stores_bounded_append, stores_bounded, hbd, hb1, and_self]
      · simp only [ht, stores_pending_append, stores_pending]
        exact hp1
    | write chan addr value =>
      by_cases hc : dev.write_count = 15
      · obtain ⟨rc, w', tf, ts, he, ht, _, _, _, hlp, hmf, hms⟩ :=
          pcie_write_flush bus b dev w chan addr value hr hid hc
        obtain ⟨hb1, hp1⟩ := hmf 15 (stores_pending 0 w.trace) (by omega) (by omega)
        have hp0 : stores_pending (stores_pending 0 w.trace) tf = 0 := by omega
        refine ⟨({ dev with write_count := 1 }, w'), by simp [step, he], rfl, rfl, ?_⟩
        have hts : stores_bounded 15 0 ts = true ∧ stores_pending 0 ts ≤ 1 := by
          cases hb : b.LP64 with
          | true =>
            rw [(hlp hb).2.2]
            simp [stores_bounded, stores_pending]
          | false => exact hms hb 15 0 (by omega) (by omega)
        refine ⟨by simp, ?_, ?_⟩
        · simp only [ht, stores_bounded_append, stores_bounded, stores_pending_append, hbd, hb1,
            hp0, hts.1, and_self]
        · simp only [ht, stores_pending_append, stores_pending, hp0]
          exact hts.2
      · obtain ⟨rc, w', t, he, ht, _, _, hlp, hms⟩ :=
          pcie_write_plain bus b dev w chan addr value hr (fun h => hc h.2)
        rw [if_pos hid] at he
        have hlt : dev.write_count < 15 := by omega
        refine ⟨({ dev with write_count := (dev.write_count + 1) % 2 ^ 8 }, w'),
          by simp [step, he], rfl, rfl, ?_⟩
        have hmod : (dev.write_count + 1) % 2 ^ 8 = dev.write_count + 1 :=
          Nat.mod_eq_of_lt (by omega)
        have hts : stores_bounded 15 (stores_pending 0 w.trace) t = true ∧
            stores_pending (stores_pending 0 w.trace) t ≤ dev.write_count + 1 := by
          cases hb : b.LP64 with
          | true =>
            rw [(hlp hb).2]
            simp only [stores_bounded, stores_pending, Bool.and_eq_true, decide_eq_true_eq]
            omega
          | false =>
            obtain ⟨h1, h2⟩ := hms hb h12 15 (stores_pending 0 w.trace) (by omega) (by omega)
            exact ⟨h1, by omega⟩
        refine ⟨by simp only [hmod]; omega, ?_, ?_⟩
        · simp only [ht, stores_bounded_append, hbd, hts.1, and_self]
        · simp only [ht, stores_pending_append, hmod]
          exact hts.2

theorem run_throttled (bus : Bus σ) (b : Build) (ops : List Op) :
    ∀ s : rshim_pcie × Window σ, s.1.pci_dev.device_id = BLUEFIELD1_DEVICE_ID → Throttled s →
      ∃ s', run bus b ops s = some s' ∧ Throttled s' := by
  induction ops with
  | nil => intro s _ hinv; exact ⟨s, rfl, hinv⟩
  | cons op ops ih =>
    intro s hid hinv
    obtain ⟨s1, he, hpci, _, hinv1⟩ := step_throttled bus b s op hid hinv
    obtain ⟨s2, he2, hinv2⟩ := ih s1 (by rw [hpci]; exact hid) hinv1
    exact ⟨s2, by simp [run, he, he2], hinv2⟩

/-! ### Access without a register window -/

/-- C9. When the `has_rshim` flag of a backend is clear, `rshim_pcie_read` and
`rshim_pcie_write` return `-ENODEV` on either kind of host and for every
device behaviour, channel, address and value; the window (its state and the
trace of loads, stores and reads), the record with its write counter, and the
content of the result location are the ones the call was entered with. -/
theorem nodevice_is_atomic (bus : Bus σ) (b : Build) (dev : rshim_pcie) (w : Window σ)
    (chan addr : Int) (value result : Nat) (h : dev.bd.has_rshim = false) :
    rshim_pcie_read bus b dev w chan addr result = some (-ENODEV, result, dev, w) ∧
    rshim_pcie_write bus b dev w chan addr value = some (-ENODEV, dev, w) := by
  simp [rshim_pcie_read, rshim_pcie_write, h]

theorem nodevice_is_atomic_witness :
    detachedDev.bd.has_rshim = false ∧
    rshim_pcie_read memBus (sampleBuild true false 3) detachedDev ⟨fun _ => 0, []⟩ 0 0x20 7 =
      some (-ENODEV, 7, detachedDev, ⟨fun _ => 0, []⟩) ∧
    rshim_pcie_write memBus (sampleBuild true false 3) detachedDev ⟨fun _ => 0, []⟩ 0 0x20 9 =
      some (-ENODEV, detachedDev, ⟨fun _ => 0, []⟩) :=
  ⟨rfl, nodevice_is_atomic memBus (sampleBuild true false 3) detachedDev ⟨fun _ => 0, []⟩
    0 0x20 9 7 rfl⟩

/-! ### Direct path -/

/-- C1. Direct path round trip.  On a host with `__LP64__`, with the window a
map from offsets to 64-bit words with plain load and store, and for every
backend with a register window (of either family, with any write counter),
every channel, address and 64-bit value `v` whose offset
`addr | (chan << 16)` lies in the mapped window: `rshim_pcie_write` returns 0
and the `rshim_pcie_read` of the same channel and address that follows returns
0 with the result `v`. -/
theorem direct_round_trip (b : Build) (hb : b.LP64 = true) (dev : rshim_pcie)
    (hr : dev.bd.has_rshim = true) (w : Window (Int → Nat)) (chan addr : Int)
    (v result : Nat) (hv : v < 2 ^ 64)
    (_hoff : 0 ≤ regoff addr chan ∧ regoff addr chan + 8 ≤ (PCI_RSHIM_WINDOW_SIZE : Int)) :
    ∃ dev1 w1, rshim_pcie_write memBus b dev w chan addr v = some (0, dev1, w1) ∧
      ∃ dev2 w2, rshim_pcie_read memBus b dev1 w1 chan addr result = some (0, v, dev2, w2) := by
  have hmod : v % 18446744073709551616 = v := Nat.mod_eq_of_lt hv
  have hwr : ∃ d w0, rshim_pcie_write memBus b dev w chan addr v =
      some (0, d, writeq memBus v w0 (regoff addr chan)) ∧ d.bd.has_rshim = true := by
    by_cases hid : dev.pci_dev.device_id = BLUEFIELD1_DEVICE_ID
    · by_cases hc : dev.write_count = 15
      · exact ⟨{ dev with write_count := 1 },
          (readq memBus { w with trace := w.trace ++ [Access.read chan b.RSH_SCRATCHPAD] }
            (regoff b.RSH_SCRATCHPAD chan)).2,
          by simp [pcie_write_throttle, write_throttle, rshim_pcie_read, hr, hb, hid, hc], hr⟩
      · exact ⟨{ dev with write_count := (dev.write_count + 1) % 2 ^ 8 }, w,
          by simp [pcie_write_throttle, write_throttle, hr, hb, hid, hc], hr⟩
    · exact ⟨dev, w, by simp [pcie_write_throttle, write_throttle, hr, hb, hid], hr⟩
  obtain ⟨d, w0, he, hd⟩ := hwr
  refine ⟨d, _, he, { d with write_count := 0 },
    (readq memBus { writeq memBus v w0 (regoff addr chan) with
      trace := (writeq memBus v w0 (regoff addr chan)).trace ++ [Access.read chan addr] }
      (regoff addr chan)).2, ?_⟩
  simp [rshim_pcie_read, hd, hb, readq, writeq, memBus, hmod]

theorem direct_round_trip_witness :
    (sampleBuild true false 3).LP64 = true ∧
    (sampleDev BLUEFIELD1_DEVICE_ID 15).bd.has_rshim = true ∧
    (0x1122334455667788 : Nat) < 2 ^ 64 ∧
    (0 ≤ regoff 0x20 0 ∧ regoff 0x20 0 + 8 ≤ (PCI_RSHIM_WINDOW_SIZE : Int)) ∧
    ∃ dev1 w1, rshim_pcie_write memBus (sampleBuild true false 3)
        (sampleDev BLUEFIELD1_DEVICE_ID 15) ⟨fun _ => 0, []⟩ 0 0x20 0x1122334455667788 =
          some (0, dev1, w1) ∧
      ∃ dev2 w2, rshim_pcie_read memBus (sampleBuild true false 3) dev1 w1 0 0x20 0 =
          some (0, 0x1122334455667788, dev2, w2) :=
  ⟨rfl, rfl, by decide, by decide,
    direct_round_trip (sampleBuild true false 3) rfl (sampleDev BLUEFIELD1_DEVICE_ID 15) rfl
      ⟨fun _ => 0, []⟩ 0 0x20 0x1122334455667788 0 (by decide) (by decide)⟩

/-! ### Write throttling -/

theorem write_count_step (bus : Bus σ) (b : Build) (dev : rshim_pcie) (w : Window σ)
    (chan addr : Int) (value : Nat) (hr : dev.bd.has_rshim = true)
    (hid : dev.pci_dev.device_id = BLUEFIELD1_DEVICE_ID) :
    ∃ rc dev' w', rshim_pcie_write bus b dev w chan addr value = some (rc, dev', w') ∧
      dev'.bd = dev.bd ∧ dev'.pci_dev = dev.pci_dev ∧
      (dev.write_count < 15 → dev'.write_count = dev.write_count + 1) ∧
      (dev.write_count = 15 → dev'.write_count = 1) := by
  by_cases hc : dev.write_count = 15
  · obtain ⟨rc, w', tf, ts, he, _⟩ := pcie_write_flush bus b dev w chan addr value hr hid hc
    exact ⟨rc, _, w', he, rfl, rfl, fun h => by omega, fun _ => rfl⟩
  · obtain ⟨rc, w', t, he, _⟩ :=
      pcie_write_plain bus b dev w chan addr value hr (fun h => hc h.2)
    rw [if_pos hid] at he
    refine ⟨rc, _, w', he, rfl, rfl, fun h => ?_, fun h => absurd h hc⟩
    exact Nat.mod_eq_of_lt (by omega)

theorem run_writes_count (bus : Bus σ) (b : Build) (ops : List Op)
    (hops : ∀ op ∈ ops, op.isWrite = true) :
    ∀ (dev : rshim_pcie) (w : Window σ), dev.bd.has_rshim = true →
      dev.pci_dev.device_id = BLUEFIELD1_DEVICE_ID → dev.write_count ≤ 15 →
      ∃ dev' w', run bus b ops (dev, w) = some (dev', w') ∧
        dev'.write_count =
          if ops.length = 0 then dev.write_count
          else (dev.write_count + ops.length - 1) % 15 + 1 := by
  induction ops with
  | nil => intro dev w _ _ _; exact ⟨dev, w, rfl, rfl⟩
  | cons op ops ih =>
    intro dev w hr hid hc
    cases op with
    | read chan addr => simpa [Op.isWrite] using hops (Op.read chan addr) (List.mem_cons_self _ _)
    | write chan addr value =>
      obtain ⟨rc, dev1, w1, he, hbd, hpci, hlt, heq⟩ :=
        write_count_step bus b dev w chan addr value hr hid
      have hc1 : dev1.write_count = if dev.write_count = 15 then 1 else dev.write_count + 1 := by
        by_cases h : dev.write_count = 15
        · rw [if_pos h]; exact heq h
        · rw [if_neg h]; exact hlt (by omega)
      obtain ⟨dev2, w2, he2, hc2⟩ := ih (fun op h => hops op (List.mem_cons_of_mem _ h)) dev1 w1
        (by rw [hbd]; exact hr) (by rw [hpci]; exact hid) (by rw [hc1]; split <;> omega)
      refine ⟨dev2, w2, by simp [run, step, he, he2], ?_⟩
      rw [hc2, hc1]
      simp only [List.length_cons]
      split <;> split <;> split <;> omega

/-- C7, counterexample.  On a first-generation backend whose counter is 15 a
write leaves the counter at 1, not at 0. -/
theorem write_counter_after_flush_is_one :
    (rshim_pcie_write memBus (sampleBuild true false 3) (sampleDev BLUEFIELD1_DEVICE_ID 15)
        ⟨fun _ => 0, []⟩ 0 0x20 7).map (fun r => (r.1, r.2.1.write_count)) = some (0, 1) ∧
    (rshim_pcie_write memBus (sampleBuild true false 3) (sampleDev BLUEFIELD1_DEVICE_ID 15)
        ⟨fun _ => 0, []⟩ 0 0x20 7).map (fun r => r.2.1.write_count) ≠ some 0 := by
  decide

/-- C7, amended.  For every backend of the write-throttled family (device id
0xc2d2) with a register window, on either kind of host and for every device
behaviour, `rshim_pcie_write` returns; a write that enters with counter
`c < 15` leaves the counter at `c + 1`; a write that enters with counter 15
(and therefore reads the scratchpad, which resets the counter) is counted too
and leaves the counter at 1; so the counter after `n ≥ 1` successive writes
from 0 is `(n - 1) % 15 + 1`, running 1, 2, ..., 15, 1, 2, .... -/
theorem write_counter_update (bus : Bus σ) (b : Build) (dev : rshim_pcie) (w : Window σ)
    (hr : dev.bd.has_rshim = true) (hid : dev.pci_dev.device_id = BLUEFIELD1_DEVICE_ID) :
    (∀ (chan addr : Int) (value : Nat),
      ∃ rc dev' w', rshim_pcie_write bus b dev w chan addr value = some (rc, dev', w') ∧
        (dev.write_count < 15 → dev'.write_count = dev.write_count + 1) ∧
        (dev.write_count = 15 → dev'.write_count = 1)) ∧
    (dev.write_count = 0 → ∀ ops : List Op, (∀ op ∈ ops, op.isWrite = true) → ops ≠ [] →
      ∃ dev' w', run bus b ops (dev, w) = some (dev', w') ∧
        dev'.write_count = (ops.length - 1) % 15 + 1) := by
  constructor
  · intro chan addr value
    obtain ⟨rc, dev', w', he, _, _, h1, h2⟩ := write_count_step bus b dev w chan addr value hr hid
    exact ⟨rc, dev', w', he, h1, h2⟩
  · intro hc ops hops hne
    obtain ⟨dev', w', he, hcount⟩ := run_writes_count bus b ops hops dev w hr hid (by omega)
    refine ⟨dev', w', he, ?_⟩
    have hlen : ops.length ≠ 0 := fun h => hne (List.length_eq_zero.mp h)
    rw [hcount, if_neg hlen, hc, Nat.zero_add]

theorem write_counter_update_witness :
    (sampleDev BLUEFIELD1_DEVICE_ID 15).bd.has_rshim = true ∧
    (sampleDev BLUEFIELD1_DEVICE_ID 15).pci_dev.device_id = BLUEFIELD1_DEVICE_ID ∧
    ∃ rc dev' w', rshim_pcie_write (constBus 0) (sampleBuild false false 3)
        (sampleDev BLUEFIELD1_DEVICE_ID 15) ⟨(), []⟩ 0 0x20 7 = some (rc, dev', w') ∧
      ((sampleDev BLUEFIELD1_DEVICE_ID 15).write_count < 15 →
        dev'.write_count = (sampleDev BLUEFIELD1_DEVICE_ID 15).write_count + 1) ∧
      ((sampleDev BLUEFIELD1_DEVICE_ID 15).write_count = 15 → dev'.write_count = 1) :=
  ⟨rfl, rfl, (write_counter_update (constBus 0) (sampleBuild false false 3)
    (sampleDev BLUEFIELD1_DEVICE_ID 15) ⟨(), []⟩ rfl rfl).1 0 0x20 7⟩

/-! ### Register accesses of the Byte Access Widget routines -/

theorem store_isStoreAt (off : Int) (v : Nat) : (Access.store off v).isStoreAt off = true := by
  simp [Access.isStoreAt]

/-- C10. Posted-write bound.  On a backend of the write-throttled family
(device id 0xc2d2) as the probe creates it (write counter 0, no access issued
yet), on either kind of host and for every device behaviour, every finite
sequence of `rshim_pcie_read` and `rshim_pcie_write` calls returns, leaves a
write counter of at most 15, and leaves a trace in which at no point more
than 15 stores have been issued since the last load (or since the start). -/
theorem posted_write_bound (bus : Bus σ) (b : Build) (dev : rshim_pcie) (w : Window σ)
    (hid : dev.pci_dev.device_id = BLUEFIELD1_DEVICE_ID) (hc : dev.write_count = 0)
    (hw : w.trace = []) (ops : List Op) :
    ∃ dev' w', run bus b ops (dev, w) = some (dev', w') ∧ dev'.write_count ≤ 15 ∧
      stores_bounded 15 0 w'.trace = true := by
  have hinv : Throttled (dev, w) := by
    refine ⟨?_, ?_, ?_⟩
    · simp [hc]
    · simp [hw, stores_bounded]
    · simp [hw, stores_pending]
  obtain ⟨s', he, hc', hb', _⟩ := run_throttled bus b ops (dev, w) hid hinv
  exact ⟨s'.1, s'.2, he, hc', hb'⟩

theorem posted_write_bound_witness :
    (sampleDev BLUEFIELD1_DEVICE_ID 0).pci_dev.device_id = BLUEFIELD1_DEVICE_ID ∧
    (sampleDev BLUEFIELD1_DEVICE_ID 0).write_count = 0 ∧
    (⟨fun _ => 0, []⟩ : Window (Int → Nat)).trace = [] ∧
    ∃ dev' w', run memBus (sampleBuild true false 3)
        (List.replicate 40 (Op.write 0 0x20 7) ++ [Op.read 1 0x20, Op.write 0 0x20 7])
        (sampleDev BLUEFIELD1_DEVICE_ID 0, ⟨fun _ => 0, []⟩) = some (dev', w') ∧
      dev'.write_count ≤ 15 ∧ stores_bounded 15 0 w'.trace = true :=
  ⟨rfl, rfl, rfl, posted_write_bound memBus (sampleBuild true false 3)
    (sampleDev BLUEFIELD1_DEVICE_ID 0) ⟨fun _ => 0, []⟩ rfl rfl rfl _⟩

/-! ### Interlock -/

theorem byte_acc_enter_acquired (bus : Bus σ) (b : Build) (dev : rshim_pcie)
    (w w1 w2 : Window σ) (hid : dev.pci_dev.device_id = BLUEFIELD2_DEVICE_ID)
    (hpw : rshim_byte_acc_pending_wait bus b w = some (0, w1))
    (hlk : rshim_byte_acc_lock_acquire bus b w1 = some (0, w2)) :
    byte_acc_enter bus b dev w = some (0, w2) := by
  simp [byte_acc_enter, hpw, hid, hlk]

theorem exit_release_last (bus : Bus σ) (b : Build) (dev : rshim_pcie) (w : Window σ)
    (hid : dev.pci_dev.device_id = BLUEFIELD2_DEVICE_ID) :
    (exit_release bus b dev w).trace =
      w.trace ++ [Access.store (regoff b.RSH_BYTE_ACC_INTERLOCK b.RSHIM_CHANNEL) 0] := by
  rw [exit_release_trace]
  simp [released, hid]

theorem trace_ends_with {l base x : List Access} (h : ∃ t, l = base ++ t) :
    ∃ t, l ++ x = base ++ t ++ x := by
  obtain ⟨t, rfl⟩ := h
  exact ⟨t, rfl⟩

/-- C4. Interlock release on all paths.  On the device generation with the
interlock (device id 0xc2d6) and for every device behaviour, when the first
pending-wait and the interlock acquisition of a `rshim_byte_acc_read` or
`rshim_byte_acc_write` both return 0, the call returns, with code 0 or
`-ETIMEDOUT`, and the last access it issues, after all those that follow the
acquisition, is the store of 0 to the interlock register. -/
theorem interlock_released_on_all_paths (bus : Bus σ) (b : Build) (dev : rshim_pcie)
    (w w1 w2 : Window σ) (addr : Int) (value result : Nat)
    (hid : dev.pci_dev.device_id = BLUEFIELD2_DEVICE_ID)
    (hpw : rshim_byte_acc_pending_wait bus b w = some (0, w1))
    (hlk : rshim_byte_acc_lock_acquire bus b w1 = some (0, w2)) :
    (∃ rc res w', rshim_byte_acc_read bus b dev w addr result = some (rc, res, w') ∧
      (rc = 0 ∨ rc = -ETIMEDOUT) ∧
      ∃ t, w'.trace = w2.trace ++ t ++
        [Access.store (regoff b.RSH_BYTE_ACC_INTERLOCK b.RSHIM_CHANNEL) 0]) ∧
    (∃ rc w', rshim_byte_acc_write bus b dev w addr value = some (rc, w') ∧
      (rc = 0 ∨ rc = -ETIMEDOUT) ∧
      ∃ t, w'.trace = w2.trace ++ t ++
        [Access.store (regoff b.RSH_BYTE_ACC_INTERLOCK b.RSHIM_CHANNEL) 0]) := by
  have hen := byte_acc_enter_acquired bus b dev w w1 w2 hid hpw hlk
  constructor
  · rw [byte_acc_read_enter, hen]
    simp only [ne_eq, not_true_eq_false, if_false]
    obtain ⟨rc, w3, t3, h3, ht3, _, _, hrc3⟩ := pending_wait_spec bus b
      (writel bus (b.RSH_BYTE_ACC_SIZE_4BYTE ||| b.RSH_BYTE_ACC_READ_TRIGGER)
        (writel bus (u32 addr) w2 (regoff b.RSH_BYTE_ACC_ADDR b.RSHIM_CHANNEL))
        (regoff b.RSH_BYTE_ACC_CTL b.RSHIM_CHANNEL))
    rw [h3]
    rcases hrc3 with rfl | rfl
    · simp only [ne_eq, not_true_eq_false, if_false]
      obtain ⟨rc, w4, t4, h4, ht4, _, _, hrc4⟩ := pending_wait_spec bus b
        (readl bus w3 (regoff b.RSH_BYTE_ACC_RDAT b.RSHIM_CHANNEL)).2
      rw [h4]
      rcases hrc4 with rfl | rfl
      · simp only [ne_eq, not_true_eq_false, if_false]
        refine ⟨0, _, _, rfl, Or.inl rfl, ?_⟩
        rw [exit_release_last bus b dev _ hid]
        apply trace_ends_with
        rw [readl_trace, ht4, readl_trace, ht3, writel_trace,
          writel_trace]
        simp only [List.append_assoc]
        exact ⟨_, rfl⟩
      · simp only [ne_eq, neg_eq_zero, etimedout_ne_zero, not_false_eq_true, if_true]
        refine ⟨-ETIMEDOUT, _, _, rfl, Or.inr rfl, ?_⟩
        rw [exit_release_last bus b dev _ hid]
        apply trace_ends_with
        rw [ht4, readl_trace, ht3, writel_trace, writel_trace]
        simp only [List.append_assoc]
        exact ⟨_, rfl⟩
    · simp only [ne_eq, neg_eq_zero, etimedout_ne_zero, not_false_eq_true, if_true]
      refine ⟨-ETIMEDOUT, _, _, rfl, Or.inr rfl, ?_⟩
      rw [exit_release_last bus b dev _ hid]
      apply trace_ends_with
      rw [ht3, writel_trace, writel_trace]
      simp only [List.append_assoc]
      exact ⟨_, rfl⟩
  · rw [byte_acc_write_enter, hen]
    simp only [ne_eq, not_true_eq_false, if_false]
    obtain ⟨rc, w3, t3, h3, ht3, _, _, hrc3⟩ := pending_wait_spec bus b
      (writel bus (value >>> 32)
        (writel bus b.RSH_BYTE_ACC_SIZE_4BYTE
          (writel bus (u32 addr) w2 (regoff b.RSH_BYTE_ACC_ADDR b.RSHIM_CHANNEL))
          (regoff b.RSH_BYTE_ACC_CTL b.RSHIM_CHANNEL))
        (regoff b.RSH_BYTE_ACC_WDAT b.RSHIM_CHANNEL))
    rw [h3]
    rcases hrc3 with rfl | rfl
    · simp only [ne_eq, not_true_eq_false, if_false]
      refine ⟨0, _, rfl, Or.inl rfl, ?_⟩
      rw [exit_release_last bus b dev _ hid]
      apply trace_ends_with
      rw [writel_trace, ht3, writel_trace, writel_trace,
        writel_trace]
      simp only [List.append_assoc]
      exact ⟨_, rfl⟩
    · simp only [ne_eq, neg_eq_zero, etimedout_ne_zero, not_false_eq_true, if_true]
      refine ⟨-ETIMEDOUT, _, rfl, Or.inr rfl, ?_⟩
      rw [exit_release_last bus b dev _ hid]
      apply trace_ends_with
      rw [ht3, writel_trace, writel_trace, writel_trace]
      simp only [List.append_assoc]
      exact ⟨_, rfl⟩

theorem interlock_released_on_all_paths_witness :
    (sampleDev BLUEFIELD2_DEVICE_ID 0).pci_dev.device_id = BLUEFIELD2_DEVICE_ID ∧
    rshim_byte_acc_pending_wait (constBus 1) (sampleBuild false false 3) ⟨(), []⟩ =
      some (0, ⟨(), [Access.load 0x10490 1]⟩) ∧
    rshim_byte_acc_lock_acquire (constBus 1) (sampleBuild false false 3)
        ⟨(), [Access.load 0x10490 1]⟩ =
      some (0, ⟨(), [Access.load 0x10490 1, Access.load 0x104b8 1]⟩) ∧
    (∃ rc res w', rshim_byte_acc_read (constBus 1) (sampleBuild false false 3)
        (sampleDev BLUEFIELD2_DEVICE_ID 0) ⟨(), []⟩ 0x20 0 = some (rc, res, w') ∧
      (rc = 0 ∨ rc = -ETIMEDOUT) ∧
      ∃ t, w'.trace = [Access.load 0x10490 1, Access.load 0x104b8 1] ++ t ++
        [Access.store (regoff (sampleBuild false false 3).RSH_BYTE_ACC_INTERLOCK
          (sampleBuild false false 3).RSHIM_CHANNEL) 0]) ∧
    (∃ rc w', rshim_byte_acc_write (constBus 1) (sampleBuild false false 3)
        (sampleDev BLUEFIELD2_DEVICE_ID 0) ⟨(), []⟩ 0x20 7 = some (rc, w') ∧
      (rc = 0 ∨ rc = -ETIMEDOUT) ∧
      ∃ t, w'.trace = [Access.load 0x10490 1, Access.load 0x104b8 1] ++ t ++
        [Access.store (regoff (sampleBuild false false 3).RSH_BYTE_ACC_INTERLOCK
          (sampleBuild false false 3).RSHIM_CHANNEL) 0]) :=
  ⟨rfl, rfl, rfl,
    interlock_released_on_all_paths (constBus 1) (sampleBuild false false 3)
      (sampleDev BLUEFIELD2_DEVICE_ID 0) ⟨(), []⟩ ⟨(), [Access.load 0x10490 1]⟩
      ⟨(), [Access.load 0x10490 1, Access.load 0x104b8 1]⟩ 0x20 7 0 rfl rfl rfl⟩

/-! ### Retry budget of the busy-wait loops -/

theorem pending_wait_loop_stuck (bus : Bus σ) (b : Build)
    (hstuck : ∀ s, (bus.load s (regoff b.RSH_BYTE_ACC_CTL b.RSHIM_CHANNEL)).1 % 2 ^ 32 &&&
      b.RSH_BYTE_ACC_PENDING ≠ 0) :
    ∀ (fuel retry : Nat) (w : Window σ), retry ≤ b.LOCK_RETRY_CNT →
      b.LOCK_RETRY_CNT + 1 ≤ retry + fuel →
      ∃ w', pending_wait_loop bus b fuel retry w = some (-ETIMEDOUT, w') ∧
        loads w'.trace = loads w.trace + (b.LOCK_RETRY_CNT + 1 - retry) := by
  intro fuel
  induction fuel with
  | zero => intro retry w h1 h2; omega
  | succ n ih =>
    intro retry w hle hfuel
    simp only [pending_wait_loop]
    have hl : loads (readl bus w (regoff b.RSH_BYTE_ACC_CTL b.RSHIM_CHANNEL)).2.trace =
        loads w.trace + 1 := by
      simp [loads, Access.isLoad]
    by_cases hto : retry + 1 > b.LOCK_RETRY_CNT
    · rw [if_pos hto]
      exact ⟨_, rfl, by rw [hl]; omega⟩
    · rw [if_neg hto, if_pos (show (readl bus w _).1 &&& _ ≠ 0 from hstuck w.regs)]
      obtain ⟨w', he, hw'⟩ := ih (retry + 1)
        (readl bus w (regoff b.RSH_BYTE_ACC_CTL b.RSHIM_CHANNEL)).2 (by omega) (by omega)
      exact ⟨w', he, by rw [hw', hl]; omega⟩

theorem lock_acquire_loop_stuck (bus : Bus σ) (b : Build)
    (hstuck : ∀ s, (bus.load s (regoff b.RSH_BYTE_ACC_INTERLOCK b.RSHIM_CHANNEL)).1 % 2 ^ 32 &&&
      0x1 = 0) :
    ∀ (fuel retry : Nat) (w : Window σ), retry ≤ b.LOCK_RETRY_CNT →
      b.LOCK_RETRY_CNT + 1 ≤ retry + fuel →
      ∃ w', lock_acquire_loop bus b fuel retry w = some (-ETIMEDOUT, w') ∧
        loads w'.trace = loads w.trace + (b.LOCK_RETRY_CNT - retry) := by
  intro fuel
  induction fuel with
  | zero => intro retry w h1 h2; omega
  | succ n ih =>
    intro retry w hle hfuel
    simp only [lock_acquire_loop]
    have hl : loads (readl bus w (regoff b.RSH_BYTE_ACC_INTERLOCK b.RSHIM_CHANNEL)).2.trace =
        loads w.trace + 1 := by
      simp [loads, Access.isLoad]
    by_cases hto : retry + 1 > b.LOCK_RETRY_CNT
    · rw [if_pos hto]
      exact ⟨_, rfl, by omega⟩
    · rw [if_neg hto, if_pos (show (readl bus w _).1 &&& 0x1 = 0 from hstuck w.regs)]
      obtain ⟨w', he, hw'⟩ := ih (retry + 1)
        (readl bus w (regoff b.RSH_BYTE_ACC_INTERLOCK b.RSHIM_CHANNEL)).2 (by omega) (by omega)
      exact ⟨w', he, by rw [hw', hl]; omega⟩

/-- Stuck pending bit: when every load of the control register shows the
pending bit set, `rshim_byte_acc_pending_wait` returns `-ETIMEDOUT` after
`LOCK_RETRY_CNT + 1` loads of the register. -/
theorem pending_wait_stuck (bus : Bus σ) (b : Build) (w : Window σ)
    (hstuck : ∀ s, (bus.load s (regoff b.RSH_BYTE_ACC_CTL b.RSHIM_CHANNEL)).1 % 2 ^ 32 &&&
      b.RSH_BYTE_ACC_PENDING ≠ 0) :
    ∃ w', rshim_byte_acc_pending_wait bus b w = some (-ETIMEDOUT, w') ∧
      loads w'.trace = loads w.trace + (b.LOCK_RETRY_CNT + 1) := by
  obtain ⟨w', he, hl⟩ := pending_wait_loop_stuck bus b hstuck (b.LOCK_RETRY_CNT + 1) 0 w
    (by omega) (by omega)
  exact ⟨w', he, by rw [hl]; omega⟩

/-- Interlock never granted: when every load of the interlock register shows
bit 0 clear, `rshim_byte_acc_lock_acquire` returns `-ETIMEDOUT` after
`LOCK_RETRY_CNT` loads of the register. -/
theorem lock_acquire_stuck (bus : Bus σ) (b : Build) (w : Window σ)
    (hstuck : ∀ s, (bus.load s (regoff b.RSH_BYTE_ACC_INTERLOCK b.RSHIM_CHANNEL)).1 % 2 ^ 32 &&&
      0x1 = 0) :
    ∃ w', rshim_byte_acc_lock_acquire bus b w = some (-ETIMEDOUT, w') ∧
      loads w'.trace = loads w.trace + b.LOCK_RETRY_CNT := by
  obtain ⟨w', he, hl⟩ := lock_acquire_loop_stuck bus b hstuck (b.LOCK_RETRY_CNT + 1) 0 w
    (by omega) (by omega)
  exact ⟨w', he, by rw [hl]; omega⟩

/-- C5, evaluated with a retry budget of 3.  With the pending bit always set,
`rshim_byte_acc_pending_wait` returns `-ETIMEDOUT` after 4 loads of the
control register, one more than the budget; with the interlock never granted,
`rshim_byte_acc_lock_acquire` returns `-ETIMEDOUT` after 3 loads. -/
theorem pending_wait_polls_budget_plus_one :
    (rshim_byte_acc_pending_wait (constBus 0x20000000) (sampleBuild false false 3)
        ⟨(), []⟩).map (fun r => (r.1, r.2.trace)) =
      some (-ETIMEDOUT, [Access.load 0x10490 0x20000000, Access.load 0x10490 0x20000000,
        Access.load 0x10490 0x20000000, Access.load 0x10490 0x20000000]) ∧
    (rshim_byte_acc_lock_acquire (constBus 0) (sampleBuild false false 3)
        ⟨(), []⟩).map (fun r => (r.1, r.2.trace)) =
      some (-ETIMEDOUT, [Access.load 0x104b8 0, Access.load 0x104b8 0,
        Access.load 0x104b8 0]) := by
  decide

/-! ### Timeout of the throttling read -/

/-- C6, evaluated on a 32-bit host with a retry budget of 3, a
first-generation backend whose counter is 15, and a device whose pending bit
reads set four times and clear afterwards.  The pending-wait that opens the
throttling read returns `-ETIMEDOUT`, so does that read of the scratchpad, and
`rshim_pcie_write` returns 0. -/
theorem flush_timeout_not_propagated :
    (rshim_byte_acc_pending_wait (firstBus 4 0x20000000) (sampleBuild false false 3)
        ⟨0, [Access.read 0 0x20]⟩).map (fun r => r.1) = some (-ETIMEDOUT) ∧
    (rshim_pcie_read (firstBus 4 0x20000000) (sampleBuild false false 3)
        (sampleDev BLUEFIELD1_DEVICE_ID 15) ⟨0, []⟩ 0
        (sampleBuild false false 3).RSH_SCRATCHPAD 0).map (fun r => r.1) =
      some (-ETIMEDOUT) ∧
    (rshim_pcie_write (firstBus 4 0x20000000) (sampleBuild false false 3)
        (sampleDev BLUEFIELD1_DEVICE_ID 15) ⟨0, []⟩ 0 0x30 7).map (fun r => r.1) = some 0 := by
  decide

/-! ### Round trip through the Byte Access Widget -/

/-- C2, evaluated on a 32-bit host with a widget that hands back the two words
stored for the address, in the order they were stored.  Writing 1 and reading
the same channel and address back returns code 0 on either byte order; the
value read is 1 on a big-endian host and 0x0100000000000000 on a little-endian
host. -/
theorem byte_acc_round_trip_little_endian :
    ((rshim_pcie_write (bawBus (sampleBuild false false 3)) (sampleBuild false false 3)
        (sampleDev BLUEFIELD2_DEVICE_ID 0) ⟨⟨0, [], []⟩, []⟩ 0 0x20 1).bind
      (fun r => (rshim_pcie_read (bawBus (sampleBuild false false 3))
        (sampleBuild false false 3) r.2.1 r.2.2 0 0x20 0).map (fun q => (r.1, q.1, q.2.1)))) =
      some (0, 0, 0x0100000000000000) ∧
    ((rshim_pcie_write (bawBus (sampleBuild false true 3)) (sampleBuild false true 3)
        (sampleDev BLUEFIELD2_DEVICE_ID 0) ⟨⟨0, [], []⟩, []⟩ 0 0x20 1).bind
      (fun r => (rshim_pcie_read (bawBus (sampleBuild false true 3))
        (sampleBuild false true 3) r.2.1 r.2.2 0 0x20 0).map (fun q => (r.1, q.1, q.2.1)))) =
      some (0, 0, 1) := by
  decide

/-! ### Probe -/


theorem map_region_keeps (env : Env) (p : pci_dev) (d : rshim_pcie) :
    (map_region env p d).2.bd = d.bd ∧ (map_region env p d).2.write_count = d.write_count ∧
      (map_region env p d).2.pci_dev = d.pci_dev := by
  unfold map_region
  dsimp only
  cases env.ioctl with
  | none => split_ifs <;> exact ⟨rfl, rfl, rfl⟩
  | some x =>
    obtain ⟨mb, bo, bl⟩ := x
    dsimp only
    split_ifs <;> exact ⟨rfl, rfl, rfl⟩

theorem deref_some_mem {wd : World} {h : Nat} {d : rshim_pcie} (hd : wd.deref h = some d) :
    some d ∈ wd.heap ∧ wd.heap[h]? = some (some d) := by
  unfold World.deref at hd
  split at hd
  · rename_i x hx
    cases hd
    exact ⟨List.getElem?_mem hx, hx⟩
  · cases hd

theorem no_record_named {wd : World} {name : String} (h0 : records_named wd name = 0)
    {d : rshim_pcie} (hmem : some d ∈ wd.heap) : d.bd.dev_name ≠ name := by
  intro hn
  have : some d ∈ wd.heap.filter (has_name name) := by
    simp [List.mem_filter, hmem, has_name, hn]
  rw [List.length_eq_zero.mp h0] at this
  simp at this

theorem find_fresh (wd : World) (name : String) (h0 : records_named wd name = 0) :
    rshim_find_by_name wd name = none := by
  unfold rshim_find_by_name
  rw [List.find?_eq_none]
  intro h _
  cases hd : wd.deref h with
  | none => simp [has_name]
  | some d =>
    have := no_record_named h0 (deref_some_mem hd).1
    simp [has_name, this]

theorem find_last (wd pre : World) (d : rshim_pcie) (name : String)
    (hheap : wd.heap = pre.heap ++ [some d]) (h0 : records_named pre name = 0)
    (hn : d.bd.dev_name = name) (hreg : pre.heap.length ∈ wd.registry) :
    rshim_find_by_name wd name = some pre.heap.length := by
  unfold rshim_find_by_name
  have hpred : ∀ h, has_name name (wd.deref h) = true → h = pre.heap.length := by
    intro h hp
    cases hd : wd.deref h with
    | none => simp [hd, has_name] at hp
    | some x =>
      simp [hd, has_name] at hp
      obtain ⟨_, hx⟩ := deref_some_mem hd
      rw [hheap] at hx
      rcases Nat.lt_trichotomy h pre.heap.length with hlt | heq | hgt
      · exfalso
        rw [List.getElem?_append_left hlt] at hx
        exact no_record_named h0 (List.getElem?_mem hx) hp
      · exact heq
      · exfalso
        rw [List.getElem?_eq_none (by simp; omega)] at hx
        cases hx
  have hlast : has_name name (wd.deref pre.heap.length) = true := by
    simp [World.deref, hheap, has_name, hn]
  cases hf : wd.registry.find? (fun h => has_name name (wd.deref h)) with
  | some x => rw [hpred x (List.find?_some (p := fun h => has_name name (wd.deref h)) hf)]
  | none =>
    rw [List.find?_eq_none] at hf
    exact absurd hlast (hf _ hreg)
theorem map_region_bd (env : Env) (p : pci_dev) (d : rshim_pcie) :
    (map_region env p d).2.bd = d.bd := (map_region_keeps env p d).1

theorem deref_new (heap : List (Option rshim_pcie)) (r : rshim_pcie) (reg : List Nat)
    (rc nc : Nat) :
    World.deref ⟨heap ++ [some r], reg, rc, nc⟩ heap.length = some r := by
  simp [World.deref]

theorem put_new (heap : List (Option rshim_pcie)) (r r' : rshim_pcie) (reg : List Nat)
    (rc nc : Nat) :
    World.put ⟨heap ++ [some r], reg, rc, nc⟩ heap.length r' = ⟨heap ++ [some r'], reg, rc, nc⟩ := by
  simp [World.put]

theorem probe_fresh (env : Env) (wd : World) (p : pci_dev)
    (hallow : env.allow (pcie_dev_name p) = true) (hcalloc : env.calloc_ok = true)
    (hmap : ∀ d, (map_region env p d).1 = none) (hreg : env.register_rc = 0)
    (hnot : env.notify_rc = 0) (h0 : records_named wd (pcie_dev_name p) = 0) :
    ∃ d, rshim_pcie_probe env wd p =
        (0, ⟨wd.heap ++ [some d], wd.registry ++ [wd.heap.length], wd.register_calls + 1,
          wd.notify_calls + 1⟩) ∧
      d.bd = { (new_record (pcie_dev_name p)).bd with ref := 1, registered := true } ∧
      d.write_count = 0 ∧ d.pci_dev = p := by
  obtain ⟨heap, reg, rc, nc⟩ := wd
  have hfind := find_fresh ⟨heap, reg, rc, nc⟩ (pcie_dev_name p) h0
  refine ⟨{ (map_region env p { new_record (pcie_dev_name p) with
      bd := { (new_record (pcie_dev_name p)).bd with ref := 1 }, pci_dev := p }).2 with
      bd := { (new_record (pcie_dev_name p)).bd with ref := 1, registered := true } }, ?_, rfl,
    ?_, ?_⟩
  · simp [rshim_pcie_probe, hallow, hfind, hcalloc, rshim_ref, deref_new, put_new, hmap,
      rshim_register, hreg, rshim_notify, hnot, map_region_bd, new_record]
  · exact (map_region_keeps env p _).2.1
  · exact (map_region_keeps env p _).2.2
theorem probe_existing (env : Env) (pre : List (Option rshim_pcie)) (d : rshim_pcie)
    (reg : List Nat) (rc nc : Nat) (p : pci_dev)
    (hallow : env.allow (pcie_dev_name p) = true)
    (hmap : ∀ d, (map_region env p d).1 = none) (hnot : env.notify_rc = 0)
    (h0 : records_named ⟨pre, [], 0, 0⟩ (pcie_dev_name p) = 0)
    (hn : d.bd.dev_name = pcie_dev_name p) (hr : d.bd.registered = true)
    (hmem : pre.length ∈ reg) :
    ∃ d', rshim_pcie_probe env ⟨pre ++ [some d], reg, rc, nc⟩ p =
        (0, ⟨pre ++ [some d'], reg, rc, nc + 1⟩) ∧
      d'.bd = { d.bd with ref := d.bd.ref + 1 } ∧
      d'.write_count = d.write_count ∧ d'.pci_dev = p := by
  have hfind := find_last ⟨pre ++ [some d], reg, rc, nc⟩ ⟨pre, [], 0, 0⟩ d (pcie_dev_name p) rfl
    h0 hn hmem
  refine ⟨(map_region env p { d with
      bd := { d.bd with ref := d.bd.ref + 1 }, pci_dev := p }).2, ?_, ?_, ?_, ?_⟩
  · simp [rshim_pcie_probe, hallow, hfind, rshim_ref, deref_new, put_new, hmap,
      rshim_notify, hnot, map_region_bd, hr]
  · exact (map_region_keeps env p _).1
  · exact (map_region_keeps env p _).2.1
  · exact (map_region_keeps env p _).2.2

theorem records_named_new (heap : List (Option rshim_pcie)) (d : rshim_pcie) (reg : List Nat)
    (rc nc : Nat) (name : String) (h0 : records_named ⟨heap, [], 0, 0⟩ name = 0)
    (hn : d.bd.dev_name = name) :
    records_named ⟨heap ++ [some d], reg, rc, nc⟩ name = 1 := by
  simp only [records_named] at h0 ⊢
  rw [List.filter_append, List.length_append, h0]
  simp [has_name, hn]

theorem pcie_dev_name_congr (p q : pci_dev) (hb : p.bus = q.bus) (hd : p.dev = q.dev)
    (hf : p.func = q.func) : pcie_dev_name p = pcie_dev_name q := by
  simp [pcie_dev_name, hb, hd, hf]

/-- C8. Duplicate probe converges.  With the core modelled as a name-keyed
registry, for every process state in which no allocated record carries the
name of the device, and for two probes of the same bus/device/function in
which the device is allowed, the record is allocated, and mapping,
registration and notification succeed: both calls of `rshim_pcie_probe` return
0; afterwards exactly one allocated record carries the device name, the
registry lookup of the name finds it, its reference count is 2 (as is that of
every record under the name), and `rshim_register` has been called exactly
once. -/
theorem duplicate_probe_converges (env1 env2 : Env) (wd : World) (p1 p2 : pci_dev)
    (hb : p1.bus = p2.bus) (hd : p1.dev = p2.dev) (hf : p1.func = p2.func)
    (h0 : records_named wd (pcie_dev_name p1) = 0)
    (hallow1 : env1.allow (pcie_dev_name p1) = true)
    (hallow2 : env2.allow (pcie_dev_name p2) = true)
    (hcalloc : env1.calloc_ok = true)
    (hmap1 : ∀ d, (map_region env1 p1 d).1 = none)
    (hmap2 : ∀ d, (map_region env2 p2 d).1 = none)
    (hreg1 : env1.register_rc = 0)
    (hnot1 : env1.notify_rc = 0) (hnot2 : env2.notify_rc = 0) :
    ∃ wd1 wd2, rshim_pcie_probe env1 wd p1 = (0, wd1) ∧
      rshim_pcie_probe env2 wd1 p2 = (0, wd2) ∧
      records_named wd2 (pcie_dev_name p1) = 1 ∧
      (∃ h d, rshim_find_by_name wd2 (pcie_dev_name p1) = some h ∧ wd2.deref h = some d ∧
        d.bd.ref = 2) ∧
      (∀ h d, wd2.deref h = some d → d.bd.dev_name = pcie_dev_name p1 → d.bd.ref = 2) ∧
      wd2.register_calls = wd.register_calls + 1 := by
  have hname := pcie_dev_name_congr p1 p2 hb hd hf
  obtain ⟨d1, he1, hbd1, _, _⟩ := probe_fresh env1 wd p1 hallow1 hcalloc hmap1 hreg1 hnot1 h0
  have h0' : records_named ⟨wd.heap, [], 0, 0⟩ (pcie_dev_name p2) = 0 := by
    rw [← hname]; exact h0
  have key : ∀ n : String,
      ({ (new_record n).bd with ref := 1, registered := true } : rshim_backend).dev_name = n :=
    fun _ => rfl
  have hn1 : d1.bd.dev_name = pcie_dev_name p2 := by
    rw [hbd1, key, hname]
  obtain ⟨d2, he2, hbd2, _, _⟩ := probe_existing env2 wd.heap d1
    (wd.registry ++ [wd.heap.length]) (wd.register_calls + 1) (wd.notify_calls + 1) p2 hallow2
    hmap2 hnot2 h0' hn1 (by rw [hbd1]) (by simp)
  have hn2 : d2.bd.dev_name = pcie_dev_name p1 := by
    rw [hbd2]
    exact hn1.trans hname.symm
  have href : d2.bd.ref = 2 := by
    rw [hbd2, hbd1]
  refine ⟨_, _, he1, he2, ?_, ?_, ?_, rfl⟩
  · exact records_named_new wd.heap d2 _ _ _ _ h0 hn2
  · refine ⟨wd.heap.length, d2, ?_, deref_new _ _ _ _ _, href⟩
    exact find_last _ ⟨wd.heap, [], 0, 0⟩ d2 (pcie_dev_name p1) rfl h0 hn2 (by simp)
  · intro h d hdr hdn
    obtain ⟨_, hx⟩ := deref_some_mem hdr
    simp only at hx
    rcases Nat.lt_trichotomy h wd.heap.length with hlt | heq | hgt
    · exfalso
      rw [List.getElem?_append_left hlt] at hx
      exact no_record_named h0 (List.getElem?_mem hx) hdn
    · subst heq
      simp at hx
      rw [← hx]; exact href
    · exfalso
      rw [List.getElem?_eq_none (by simp; omega)] at hx
      cases hx
theorem duplicate_probe_converges_witness :
    (samplePci BLUEFIELD2_DEVICE_ID).bus = (samplePci BLUEFIELD2_DEVICE_ID).bus ∧
    records_named World.empty (pcie_dev_name (samplePci BLUEFIELD2_DEVICE_ID)) = 0 ∧
    sampleEnv.allow (pcie_dev_name (samplePci BLUEFIELD2_DEVICE_ID)) = true ∧
    sampleEnv.calloc_ok = true ∧
    (∀ d, (map_region sampleEnv (samplePci BLUEFIELD2_DEVICE_ID) d).1 = none) ∧
    sampleEnv.register_rc = 0 ∧ sampleEnv.notify_rc = 0 ∧
    ∃ wd1 wd2, rshim_pcie_probe sampleEnv World.empty (samplePci BLUEFIELD2_DEVICE_ID) = (0, wd1) ∧
      rshim_pcie_probe sampleEnv wd1 (samplePci BLUEFIELD2_DEVICE_ID) = (0, wd2) ∧
      records_named wd2 (pcie_dev_name (samplePci BLUEFIELD2_DEVICE_ID)) = 1 ∧
      (∃ h d, rshim_find_by_name wd2 (pcie_dev_name (samplePci BLUEFIELD2_DEVICE_ID)) = some h ∧
        wd2.deref h = some d ∧ d.bd.ref = 2) ∧
      (∀ h d, wd2.deref h = some d →
        d.bd.dev_name = pcie_dev_name (samplePci BLUEFIELD2_DEVICE_ID) → d.bd.ref = 2) ∧
      wd2.register_calls = World.empty.register_calls + 1 :=
  ⟨rfl, rfl, rfl, rfl, fun _ => rfl, rfl, rfl,
    duplicate_probe_converges sampleEnv sampleEnv World.empty (samplePci BLUEFIELD2_DEVICE_ID)
      (samplePci BLUEFIELD2_DEVICE_ID) rfl rfl rfl rfl rfl rfl rfl (fun _ => rfl) (fun _ => rfl)
      rfl rfl rfl⟩

end RshimPcie
